import Mathlib

/-!
Verification development for the livechat-server data pipeline.

Shallow embedding of the lead-validity classifier, timing analyzer,
channel attributor, time normalizer and contact extraction from:
  - src/data_conversion_pipeline.py
  - src/analyze_chats.py
  - src/analyze_traffic_sources.py
  - src/clean_chat_data.py

Python strings are modelled as Lean `String` (a structure over `List Char`);
`str.strip()`, `str.lower()`, `in`, `startswith`, `endswith` are modelled
by the `py*` helpers below.  `str.lower()` is modelled with `Char.toLower`
(ASCII case folding), which agrees with Python on all the ASCII patterns the
pipeline compares against and is the identity on the non-ASCII keyword 测试.
-/

namespace LiveChat

/-- Model of Python `str.strip()` on the underlying character list: drop
Unicode whitespace from both ends. -/
def stripD (l : List Char) : List Char :=
  ((l.dropWhile Char.isWhitespace).reverse.dropWhile Char.isWhitespace).reverse

/-- Model of Python `str.lower()` on the underlying character list. -/
def lowerD (l : List Char) : List Char := l.map Char.toLower

/-- Python `s.strip()`. -/
def pyStrip (s : String) : String := String.mk (stripD s.data)

/-- Python `s.lower()`. -/
def pyLower (s : String) : String := String.mk (lowerD s.data)

/-- Python `sub in s` (substring containment). -/
def pyContains (sub s : String) : Bool := decide (sub.data <:+: s.data)

/-- Python `s.startswith(pre)`. -/
def pyStartsWith (pre s : String) : Bool := List.isPrefixOf pre.data s.data

/-- Python `s.endswith(suf)`. -/
def pyEndsWith (suf s : String) : Bool := List.isSuffixOf suf.data s.data

/-- Python `any(char.isdigit() for char in s)`. -/
def pyHasDigit (s : String) : Bool := s.data.any Char.isDigit

/-- Configured test email-domain suffixes (`ChatDataProcessor.__init__`,
src/data_conversion_pipeline.py line 27). -/
def test_domains : List String := ["@v-ycfz.com", "@vertu.cn"]

/-- Configured test keywords for names (`ChatDataProcessor.__init__`,
src/data_conversion_pipeline.py line 28). -/
def test_keywords : List String := ["test", "testing", "测试", "demo"]

/-- `ChatDataProcessor._is_test_email` (src/data_conversion_pipeline.py
lines 283-298). -/
def is_test_email (email : String) : Bool :=
  if email = "" then false
  else
    let e := pyLower (pyStrip email)
    if e = "katrinayu0815@gmail.com" then true
    else if test_domains.any (fun d => pyEndsWith d e) then true
    else if pyEndsWith ("@qq.com") e && pyContains ("test") e then true
    else false

/-- `ChatDataProcessor._is_test_name` (src/data_conversion_pipeline.py
lines 300-305). -/
def is_test_name (name : String) : Bool :=
  if name = "" then false
  else
    let n := pyLower (pyStrip name)
    test_keywords.any (fun kw => pyContains kw n)

/-- `ChatDataProcessor._is_admin_referrer` (src/data_conversion_pipeline.py
lines 307-311). -/
def is_admin_referrer (referrer : String) : Bool :=
  if referrer = "" then false
  else pyStartsWith ("https://vertu.com/wp-admin/") (pyStrip referrer)

/-- `ChatDataProcessor._is_valid_consultation` (src/data_conversion_pipeline.py
lines 313-337). -/
def is_valid_consultation (customer_name customer_email customer_phone referrer : String) :
    Bool :=
  if is_test_email customer_email || is_test_name customer_name then false
  else if is_admin_referrer referrer then false
  else
    let has_valid_email :=
      customer_email != "" && pyContains ("@") (pyStrip customer_email) &&
        !(is_test_email customer_email)
    let has_valid_phone :=
      if customer_phone != "" && pyStrip customer_phone != "" then
        let p := pyStrip customer_phone
        if !(pyStartsWith ("http") p) && !(pyStartsWith ("www") p) && p != "N/A" then
          pyHasDigit p
        else false
      else false
    has_valid_email || has_valid_phone

theorem char_toNat_ofNat {n : ℕ} (h : n.isValidChar) : (Char.ofNat n).toNat = n := by
  rw [Char.ofNat, dif_pos h]
  simp [Char.ofNatAux, Char.toNat, UInt32.toNat]

theorem char_ne_of_toNat_ne {a b : Char} (h : a.toNat ≠ b.toNat) : a ≠ b :=
  fun he => h (congrArg Char.toNat he)

theorem isWhitespace_toLower (c : Char) :
    (Char.toLower c).isWhitespace = c.isWhitespace := by
  show (if c.toNat ≥ 65 ∧ c.toNat ≤ 90 then Char.ofNat (c.toNat + 32) else c).isWhitespace =
    c.isWhitespace
  split
  · rename_i h
    have hv : (c.toNat + 32).isValidChar := Or.inl (by omega)
    have ht : (Char.ofNat (c.toNat + 32)).toNat = c.toNat + 32 := char_toNat_ofNat hv
    have c32 : (' ').toNat = 32 := rfl
    have c9 : ('\t').toNat = 9 := rfl
    have c13 : ('\r').toNat = 13 := rfl
    have c10 : ('\n').toNat = 10 := rfl
    have h1 : (Char.ofNat (c.toNat + 32)).isWhitespace = false := by
      simp only [Char.isWhitespace, Bool.or_eq_false_iff, decide_eq_false_iff_not]
      refine ⟨⟨⟨?_, ?_⟩, ?_⟩, ?_⟩ <;>
        exact char_ne_of_toNat_ne (by rw [ht]; simp only [c32, c9, c13, c10]; omega)
    have h2 : c.isWhitespace = false := by
      simp only [Char.isWhitespace, Bool.or_eq_false_iff, decide_eq_false_iff_not]
      refine ⟨⟨⟨?_, ?_⟩, ?_⟩, ?_⟩ <;>
        exact char_ne_of_toNat_ne (by simp only [c32, c9, c13, c10]; omega)
    rw [h1, h2]
  · rfl

theorem dropWhile_eq_self_of_head {α} {p : α → Bool} {a : α} {l : List α}
    (h : p a = false) : (a :: l).dropWhile p = a :: l := by
  rw [List.dropWhile_cons, h]
  simp

theorem infix_dropWhile_of_forall {α} {p : α → Bool} {kw l : List α}
    (hne : kw ≠ []) (hkw : ∀ c ∈ kw, p c = false) (h : kw <:+: l) :
    kw <:+: l.dropWhile p := by
  obtain ⟨s, t, rfl⟩ := h
  rw [List.append_assoc, List.dropWhile_append]
  split
  · obtain ⟨a, kw', rfl⟩ := List.exists_cons_of_ne_nil hne
    rw [List.cons_append, dropWhile_eq_self_of_head (hkw a (by simp))]
    exact ⟨[], t, by simp⟩
  · exact ⟨s.dropWhile p, t, by simp⟩

theorem prefix_dropWhile_of_forall {α} {p : α → Bool} {s l : List α}
    (hne : s ≠ []) (hs : ∀ c ∈ s, p c = false) (h : s <+: l) :
    s <+: l.dropWhile p := by
  obtain ⟨t, rfl⟩ := h
  obtain ⟨a, s', rfl⟩ := List.exists_cons_of_ne_nil hne
  rw [List.cons_append, dropWhile_eq_self_of_head (hs a (by simp))]
  exact ⟨t, by simp⟩

theorem suffix_dropWhile_of_forall {α} {p : α → Bool} {s l : List α}
    (hne : s ≠ []) (hs : ∀ c ∈ s, p c = false) (h : s <:+ l) :
    s <:+ l.dropWhile p := by
  obtain ⟨t, rfl⟩ := h
  rw [List.dropWhile_append]
  split
  · obtain ⟨a, s', rfl⟩ := List.exists_cons_of_ne_nil hne
    rw [dropWhile_eq_self_of_head (hs a (by simp))]
  · exact List.suffix_append _ _

theorem infix_stripD {kw l : List Char} (hne : kw ≠ [])
    (hkw : ∀ c ∈ kw, c.isWhitespace = false) (h : kw <:+: l) :
    kw <:+: stripD l := by
  unfold stripD
  have h1 := infix_dropWhile_of_forall hne hkw h
  have h2 : kw.reverse <:+: (l.dropWhile Char.isWhitespace).reverse :=
    List.reverse_infix.mpr h1
  have h3 := infix_dropWhile_of_forall (by simpa using hne)
    (fun c hc => hkw c (List.mem_reverse.mp hc)) h2
  have h4 := List.reverse_infix.mpr h3
  simpa using h4

theorem suffix_stripD {s l : List Char} (hne : s ≠ [])
    (hs : ∀ c ∈ s, c.isWhitespace = false) (h : s <:+ l) :
    s <:+ stripD l := by
  unfold stripD
  have h1 := suffix_dropWhile_of_forall hne hs h
  have h2 : s.reverse <+: (l.dropWhile Char.isWhitespace).reverse :=
    List.reverse_prefix.mpr h1
  have h3 := prefix_dropWhile_of_forall (by simpa using hne)
    (fun c hc => hs c (List.mem_reverse.mp hc)) h2
  have h4 := List.reverse_suffix.mpr h3
  simpa using h4

theorem prefix_stripD {s l : List Char} (hne : s ≠ [])
    (hs : ∀ c ∈ s, c.isWhitespace = false) (h : s <+: l) :
    s <+: stripD l := by
  unfold stripD
  have h1 := prefix_dropWhile_of_forall hne hs h
  have h2 : s.reverse <:+ (l.dropWhile Char.isWhitespace).reverse :=
    List.reverse_suffix.mpr h1
  have h3 := suffix_dropWhile_of_forall (by simpa using hne)
    (fun c hc => hs c (List.mem_reverse.mp hc)) h2
  have h4 := List.reverse_prefix.mpr h3
  simpa using h4

theorem stripD_within (l : List Char) : stripD l <:+: l := by
  unfold stripD
  have h1 : (l.dropWhile Char.isWhitespace).reverse.dropWhile Char.isWhitespace <:+
      (l.dropWhile Char.isWhitespace).reverse := List.dropWhile_suffix _
  have h2 := List.reverse_prefix.mpr h1
  have h3 : ((l.dropWhile Char.isWhitespace).reverse.dropWhile Char.isWhitespace).reverse <+:
      l.dropWhile Char.isWhitespace := by simpa using h2
  exact h3.isInfix.trans (List.dropWhile_suffix _).isInfix

theorem lowerD_stripD (l : List Char) : lowerD (stripD l) = stripD (lowerD l) := by
  have hws : (Char.isWhitespace ∘ Char.toLower) = Char.isWhitespace :=
    funext isWhitespace_toLower
  have key : ∀ m : List Char,
      List.dropWhile Char.isWhitespace (List.map Char.toLower m) =
        List.map Char.toLower (List.dropWhile Char.isWhitespace m) := by
    intro m
    rw [List.dropWhile_map, hws]
  unfold lowerD stripD
  rw [key, ← List.map_reverse, key, ← List.map_reverse]

theorem pyContains_pyStrip {sub : String} (s : String) (hne : sub.data ≠ [])
    (hsub : ∀ c ∈ sub.data, c.isWhitespace = false) :
    pyContains sub (pyStrip s) = pyContains sub s := by
  unfold pyContains pyStrip
  simp only [decide_eq_decide]
  exact ⟨fun h => h.trans (stripD_within s.data), fun h => infix_stripD hne hsub h⟩

theorem ne_empty_of_data_ne_nil {s : String} (h : s.data ≠ []) : s ≠ "" := by
  intro he
  subst he
  exact h rfl

theorem pyStrip_ne_empty {s : String} (h : (pyStrip s != "") = true) : (s != "") = true := by
  rcases eq_or_ne s "" with rfl | hne
  · exact absurd h (by decide)
  · simpa using hne

theorem phone_bool_helper (a b c d e f : Bool) (himp : a = true → e = true) :
    (if e && a then (if b && c && d then f else false) else false) =
      (a && f && b && c && d) := by
  cases a <;> cases b <;> cases c <;> cases d <;> cases f <;> simp_all

/-- Acceptance rule exactly as claim C1 words it, with the URL-shape and
digit conditions read on the raw phone field. -/
def claimC1Accepts (email phone : String) : Bool :=
  (email != "" && pyContains ("@") email) ||
  (phone != "" && pyHasDigit phone && !(pyStartsWith ("http") phone) &&
    !(pyStartsWith ("www") phone) && phone != "N/A")

/-- C1 counterexample: on the contact with empty name, email and referrer and
phone " http1" (leading blank) no exclusion rule fires and the claim-side
acceptance rule accepts, since the raw phone does not start with "http" and
carries a digit; but `_is_valid_consultation` rejects, because the source
applies the URL-shape checks to the whitespace-stripped phone. -/
theorem C1_counterexample :
    is_test_email ("") = false ∧ is_test_name ("") = false ∧
    is_admin_referrer ("") = false ∧
    claimC1Accepts ("") (" http1") = true ∧
    is_valid_consultation ("") ("") (" http1") ("") = false := by decide

/-- Acceptance rule of claim C1 amended: the phone conditions are read on the
whitespace-stripped phone, as the source does. -/
def claimC1AcceptsStripped (email phone : String) : Bool :=
  (email != "" && pyContains ("@") email) ||
  (pyStrip phone != "" && pyHasDigit (pyStrip phone) &&
    !(pyStartsWith ("http") (pyStrip phone)) && !(pyStartsWith ("www") (pyStrip phone)) &&
    pyStrip phone != "N/A")

/-- C1 (amended): when no exclusion rule fires, the classifier accepts iff the
email is non-empty and contains an at-sign, or the whitespace-stripped phone is
non-empty, has a digit, does not start with http or www, and is not N/A. -/
theorem C1_validity_amended (name email phone referrer : String)
    (h1 : is_test_email email = false) (h2 : is_test_name name = false)
    (h3 : is_admin_referrer referrer = false) :
    is_valid_consultation name email phone referrer = claimC1AcceptsStripped email phone := by
  have hemail : pyContains ("@") (pyStrip email) = pyContains ("@") email :=
    pyContains_pyStrip email (by decide) (by decide)
  unfold is_valid_consultation claimC1AcceptsStripped
  rw [h1, h2, h3, hemail]
  simp only [Bool.or_false, Bool.not_false, Bool.and_true, Bool.false_or, if_false,
    Bool.false_eq_true, ite_false]
  congr 1
  exact phone_bool_helper _ _ _ _ _ _ (fun h => pyStrip_ne_empty h)

/-- C1 witness: the amended theorem applied at name John, no email, phone
12345, empty referrer. -/
theorem C1_validity_witness :
    is_valid_consultation ("John") ("") ("12345") ("") = true ∧
      claimC1AcceptsStripped ("") ("12345") = true := by
  have h := C1_validity_amended ("John") ("") ("12345") ("")
    (by decide) (by decide) (by decide)
  exact ⟨by rw [h]; decide, by decide⟩

theorem is_valid_eq_false_of_test_email {email : String} (h : is_test_email email = true)
    (name phone referrer : String) :
    is_valid_consultation name email phone referrer = false := by
  unfold is_valid_consultation
  simp [h]

theorem is_valid_eq_false_of_test_name {name : String} (h : is_test_name name = true)
    (email phone referrer : String) :
    is_valid_consultation name email phone referrer = false := by
  unfold is_valid_consultation
  simp [h]

theorem is_valid_eq_false_of_admin {referrer : String} (h : is_admin_referrer referrer = true)
    (name email phone : String) :
    is_valid_consultation name email phone referrer = false := by
  unfold is_valid_consultation
  cases hb : is_test_email email || is_test_name name <;> simp [hb, h]

theorem is_test_email_of_domain_suffix {email d : String}
    (hne : d.data ≠ []) (hws : ∀ c ∈ d.data, c.isWhitespace = false)
    (hlow : d.data.map Char.toLower = d.data) (hmem : d ∈ test_domains)
    (h : d.data <:+ email.data) : is_test_email email = true := by
  have hemail : email ≠ "" := by
    refine ne_empty_of_data_ne_nil fun hnil => ?_
    rw [hnil] at h
    exact hne (List.suffix_nil.mp h)
  have h1 : d.data <:+ stripD email.data := suffix_stripD hne hws h
  have h2 : d.data <:+ lowerD (stripD email.data) := by
    have := List.IsSuffix.map Char.toLower h1
    rwa [hlow] at this
  have hany : test_domains.any
      (fun x => pyEndsWith x (pyLower (pyStrip email))) = true := by
    refine List.any_eq_true.mpr ⟨d, hmem, ?_⟩
    exact List.isSuffixOf_iff_suffix.mpr h2
  unfold is_test_email
  rw [if_neg hemail]
  simp [hany]

theorem is_test_email_of_qq {email : String} {l : List Char}
    (hdata : email.data = l ++ ("@qq.com").data)
    (htest : ("test").data <:+: l) : is_test_email email = true := by
  have hemail : email ≠ "" := by
    refine ne_empty_of_data_ne_nil fun hnil => ?_
    rw [hnil] at hdata
    exact absurd (congrArg List.length hdata) (by simp)
  have hsuf : ("@qq.com").data <:+ email.data := ⟨l, hdata.symm⟩
  have hinf : ("test").data <:+: email.data := by
    refine htest.trans ?_
    exact ⟨[], ("@qq.com").data, by rw [hdata]; simp⟩
  have h1 : ("@qq.com").data <:+ lowerD (stripD email.data) := by
    have hs := suffix_stripD (by decide) (by decide) hsuf
    have := List.IsSuffix.map Char.toLower hs
    rwa [show ("@qq.com").data.map Char.toLower = ("@qq.com").data from by decide] at this
  have h2 : ("test").data <:+: lowerD (stripD email.data) := by
    have hs := infix_stripD (by decide) (by decide) hinf
    have := List.IsInfix.map Char.toLower hs
    rwa [show ("test").data.map Char.toLower = ("test").data from by decide] at this
  have hA : pyEndsWith ("@qq.com") (pyLower (pyStrip email)) = true :=
    List.isSuffixOf_iff_suffix.mpr h1
  have hB : pyContains ("test") (pyLower (pyStrip email)) = true := decide_eq_true h2
  unfold is_test_email
  rw [if_neg hemail]
  simp [hA, hB]

theorem is_test_name_of_keyword {name kw : String}
    (hne : kw.data ≠ []) (hws : ∀ c ∈ kw.data, c.isWhitespace = false)
    (hmem : kw ∈ test_keywords)
    (h : kw.data <:+: (pyLower name).data) : is_test_name name = true := by
  have hname : name ≠ "" := by
    refine ne_empty_of_data_ne_nil fun hnil => ?_
    have hpl : (pyLower name).data = [] := by simp [pyLower, lowerD, hnil]
    rw [hpl] at h
    obtain ⟨s, t, hst⟩ := h
    simp only [List.append_eq_nil] at hst
    exact hne hst.1.2
  have h2 : kw.data <:+: lowerD (stripD name.data) := by
    rw [lowerD_stripD]
    exact infix_stripD hne hws h
  unfold is_test_name
  rw [if_neg hname]
  refine List.any_eq_true.mpr ⟨kw, hmem, ?_⟩
  exact decide_eq_true h2

theorem is_admin_referrer_of_start {referrer : String}
    (h : ("https://vertu.com/wp-admin/").data <+: referrer.data) :
    is_admin_referrer referrer = true := by
  have href : referrer ≠ "" := by
    refine ne_empty_of_data_ne_nil fun hnil => ?_
    rw [hnil] at h
    exact absurd (List.prefix_nil.mp h) (by decide)
  have h1 : ("https://vertu.com/wp-admin/").data <+: stripD referrer.data :=
    prefix_stripD (by decide) (by decide) h
  unfold is_admin_referrer
  rw [if_neg href]
  exact List.isPrefixOf_iff_prefix.mpr h1

/-- C2: every exclusion condition of the claim forces rejection regardless of
the other fields: an email ending in a configured test-domain suffix, the
denylisted address, a qq.com email with the substring test in its local part, a
name containing a test keyword case-insensitively, or a referrer starting with
the administrative-panel prefix. -/
theorem C2_exclusions (name email phone referrer : String)
    (h :
      (∃ d ∈ test_domains, d.data <:+ email.data) ∨
      email = "katrinayu0815@gmail.com" ∨
      (∃ l : List Char, email.data = l ++ ("@qq.com").data ∧ ("test").data <:+: l) ∨
      (∃ kw ∈ test_keywords, kw.data <:+: (pyLower name).data) ∨
      ("https://vertu.com/wp-admin/").data <+: referrer.data) :
    is_valid_consultation name email phone referrer = false := by
  rcases h with ⟨d, hd, hsuf⟩ | rfl | ⟨l, hdata, htest⟩ | ⟨kw, hkw, hinf⟩ | hadmin
  · refine is_valid_eq_false_of_test_email ?_ name phone referrer
    exact is_test_email_of_domain_suffix (by fin_cases hd <;> decide)
      (by fin_cases hd <;> decide) (by fin_cases hd <;> decide) hd hsuf
  · exact is_valid_eq_false_of_test_email (by decide) name phone referrer
  · exact is_valid_eq_false_of_test_email (is_test_email_of_qq hdata htest) name phone referrer
  · refine is_valid_eq_false_of_test_name ?_ email phone referrer
    exact is_test_name_of_keyword (by fin_cases hkw <;> decide)
      (by fin_cases hkw <;> decide) hkw hinf
  · exact is_valid_eq_false_of_admin (is_admin_referrer_of_start hadmin) name email phone

/-- C2 witness: the exclusion theorem applied to the test-domain email
tester@v-ycfz.com with an otherwise valid phone. -/
theorem C2_exclusions_witness :
    is_valid_consultation ("J") ("tester@v-ycfz.com") ("12345") ("") = false := by
  refine C2_exclusions ("J") ("tester@v-ycfz.com") ("12345") ("") ?_
  exact Or.inl ⟨"@v-ycfz.com", by decide, by decide⟩

/-- Qualification verdicts of `calculate_timing_metrics`.  The source returns
the strings 无回复 (NoReply), 合格 (Qualified), 不合格 (Unqualified) and
异常时间 (AnomalousTime); the spec uses the English names. -/
inductive Qual where
  | Qualified
  | Unqualified
  | NoReply
  | AnomalousTime
  deriving DecidableEq, Repr

/-- A message as consumed by `calculate_timing_metrics`: `time` is the parsed
timestamp of the message's time string, as rational seconds on a common time
axis; `none` models an absent or unparsable time, which the source skips (the
falsy check on `message.get('time')` and the except handler around parsing);
`sender` is the message's sender string. -/
structure TMsg where
  time : Option ℚ
  sender : String
  deriving DecidableEq

/-- The scanning loop of `calculate_timing_metrics` (src/analyze_chats.py
lines 49-67).  The accumulator is `first_customer_time`; in the source
`customer_message_found` is set exactly when `first_customer_time` is set, so
one `Option` accumulator models both.  The loop records the first Agent
message whose time is at or after the first customer time and then stops. -/
def scanLoop : List TMsg → Option ℚ → Option ℚ × Option ℚ
  | [], fct => (fct, none)
  | m :: rest, fct =>
    match m.time with
    | none => scanLoop rest fct
    | some t =>
      let fct' := if m.sender = "Customer" ∧ fct = none then some t else fct
      match fct' with
      | none => scanLoop rest none
      | some c =>
        if m.sender = "Agent" ∧ c ≤ t then (some c, some t)
        else scanLoop rest (some c)

/-- Round half to even at integer precision, the rounding used by Python's
builtin `round`. -/
def roundHalfEven (q : ℚ) : ℤ :=
  if Int.fract q < 1/2 then ⌊q⌋
  else if 1/2 < Int.fract q then ⌊q⌋ + 1
  else if 2 ∣ ⌊q⌋ then ⌊q⌋ else ⌊q⌋ + 1

/-- Python `round(x, 2)` on exact rationals. -/
def pyRound2 (q : ℚ) : ℚ := (roundHalfEven (q * 100) : ℚ) / 100

/-- `calculate_timing_metrics` (src/analyze_chats.py lines 43-87), restricted
to the two output fields the claims concern: 首次回复时长 (秒), the rounded
first-reply latency, and 是否合格, the qualification verdict.  The third
output field 初始对话时间段 (the formatted first message time) is not
modelled, as no claim mentions it. -/
def calculate_timing_metrics (messages : List TMsg) : Option ℚ × Qual :=
  match (scanLoop messages none).1, (scanLoop messages none).2 with
  | some c, some r =>
    if 0 ≤ r - c then
      (some (pyRound2 (r - c)), if r - c ≤ 30 then Qual.Qualified else Qual.Unqualified)
    else (none, Qual.AnomalousTime)
  | _, _ => (none, Qual.NoReply)

/-- Time of the first Customer message carrying a parsed time. -/
def firstCustomerTime (messages : List TMsg) : Option ℚ :=
  (messages.filterMap fun m => if m.sender = "Customer" then m.time else none).head?

/-- The messages after the first timed Customer message. -/
def restAfterFirstCustomer : List TMsg → List TMsg
  | [] => []
  | m :: rest =>
    if m.sender = "Customer" ∧ m.time.isSome then rest
    else restAfterFirstCustomer rest

/-- A qualifying reply for first customer time t0: an Agent message whose
parsed time is at or after t0. -/
def isQualifyingReply (t0 : ℚ) (m : TMsg) : Bool :=
  decide (m.sender = "Agent") &&
    (match m.time with
     | some t => decide (t0 ≤ t)
     | none => false)

/-- Time of the first qualifying Agent reply, read off the message list. -/
def firstAgentReplyTime (messages : List TMsg) : Option ℚ :=
  match firstCustomerTime messages with
  | none => none
  | some t0 =>
    ((restAfterFirstCustomer messages).find? (isQualifyingReply t0)).bind TMsg.time

theorem scanLoop_some (msgs : List TMsg) (c : ℚ) :
    scanLoop msgs (some c) =
      (some c, (msgs.find? (isQualifyingReply c)).bind TMsg.time) := by
  induction msgs with
  | nil => rfl
  | cons m rest ih =>
    cases hm : m.time with
    | none =>
      have hp : isQualifyingReply c m = false := by
        simp [isQualifyingReply, hm]
      simp [scanLoop, hm, List.find?_cons, hp, ih]
    | some t =>
      by_cases hA : m.sender = "Agent"
      · by_cases hct : c ≤ t
        · have hp : isQualifyingReply c m = true := by
            simp [isQualifyingReply, hm, hA, hct]
          simp [scanLoop, hm, hA, hct, List.find?_cons, hp]
        · have hp : isQualifyingReply c m = false := by
            simp [isQualifyingReply, hm, hct]
          have hC : ¬ m.sender = "Customer" := by
            rw [hA]
            decide
          simp [scanLoop, hm, hA, hct, hC, List.find?_cons, hp, ih]
      · have hp : isQualifyingReply c m = false := by
          simp [isQualifyingReply, hA]
        simp [scanLoop, hm, hA, List.find?_cons, hp, ih]

theorem scanLoop_none (msgs : List TMsg) :
    scanLoop msgs none =
      match firstCustomerTime msgs with
      | none => (none, none)
      | some c =>
        (some c,
          ((restAfterFirstCustomer msgs).find? (isQualifyingReply c)).bind TMsg.time) := by
  induction msgs with
  | nil => rfl
  | cons m rest ih =>
    cases hm : m.time with
    | none =>
      simp [scanLoop, hm, firstCustomerTime, restAfterFirstCustomer,
        List.filterMap_cons] at ih ⊢
      exact ih
    | some t =>
      by_cases hC : m.sender = "Customer"
      · have hA : ¬ m.sender = "Agent" := by
          rw [hC]
          decide
        simp [scanLoop, hm, hC, hA, firstCustomerTime, restAfterFirstCustomer,
          List.filterMap_cons, scanLoop_some]
      · simp [scanLoop, hm, hC, firstCustomerTime, restAfterFirstCustomer,
          List.filterMap_cons] at ih ⊢
        exact ih

theorem scanLoop_none_fst (msgs : List TMsg) :
    (scanLoop msgs none).1 = firstCustomerTime msgs := by
  rw [scanLoop_none]
  cases h0 : firstCustomerTime msgs <;> rfl

theorem scanLoop_none_snd (msgs : List TMsg) :
    (scanLoop msgs none).2 = firstAgentReplyTime msgs := by
  rw [scanLoop_none]
  unfold firstAgentReplyTime
  cases h0 : firstCustomerTime msgs <;> rfl

theorem calc_of_both {msgs : List TMsg} {t0 t1 : ℚ}
    (h0 : firstCustomerTime msgs = some t0)
    (h1 : firstAgentReplyTime msgs = some t1) :
    calculate_timing_metrics msgs =
      if 0 ≤ t1 - t0 then
        (some (pyRound2 (t1 - t0)),
          if t1 - t0 ≤ 30 then Qual.Qualified else Qual.Unqualified)
      else (none, Qual.AnomalousTime) := by
  unfold calculate_timing_metrics
  rw [scanLoop_none_fst, scanLoop_none_snd, h0, h1]

theorem calc_of_noreply {msgs : List TMsg} {t0 : ℚ}
    (h0 : firstCustomerTime msgs = some t0)
    (h1 : firstAgentReplyTime msgs = none) :
    calculate_timing_metrics msgs = (none, Qual.NoReply) := by
  unfold calculate_timing_metrics
  rw [scanLoop_none_fst, scanLoop_none_snd, h0, h1]

theorem calc_of_nocustomer {msgs : List TMsg}
    (h0 : firstCustomerTime msgs = none) :
    calculate_timing_metrics msgs = (none, Qual.NoReply) := by
  have h1 : firstAgentReplyTime msgs = none := by
    unfold firstAgentReplyTime
    rw [h0]
  unfold calculate_timing_metrics
  rw [scanLoop_none_fst, scanLoop_none_snd, h0, h1]

theorem le_of_firstAgentReplyTime_some {msgs : List TMsg} {t0 t1 : ℚ}
    (h0 : firstCustomerTime msgs = some t0)
    (h1 : firstAgentReplyTime msgs = some t1) : t0 ≤ t1 := by
  unfold firstAgentReplyTime at h1
  rw [h0] at h1
  replace h1 :
      ((restAfterFirstCustomer msgs).find? (isQualifyingReply t0)).bind TMsg.time =
        some t1 := h1
  obtain ⟨m, hm, hmt⟩ := Option.bind_eq_some.mp h1
  have hp := List.find?_some hm
  unfold isQualifyingReply at hp
  rw [hmt] at hp
  simp at hp
  exact hp.2

/-- C3: with a first timed customer message at t0 and a first qualifying agent
reply at t1 (necessarily at or after t0), the analyzer reports the latency
t1 - t0 in seconds rounded to two decimals and verdict Qualified when the
latency is at most 30 seconds, else Unqualified; a customer message without a
qualifying reply, or no customer message at all, yields NoReply with no
latency. -/
theorem C3_timing (msgs : List TMsg) :
    (∀ t0 t1 : ℚ, firstCustomerTime msgs = some t0 →
        firstAgentReplyTime msgs = some t1 → t0 ≤ t1 →
        calculate_timing_metrics msgs =
          (some (pyRound2 (t1 - t0)),
            if t1 - t0 ≤ 30 then Qual.Qualified else Qual.Unqualified)) ∧
    (∀ t0 : ℚ, firstCustomerTime msgs = some t0 →
        firstAgentReplyTime msgs = none →
        calculate_timing_metrics msgs = (none, Qual.NoReply)) ∧
    (firstCustomerTime msgs = none →
        calculate_timing_metrics msgs = (none, Qual.NoReply)) := by
  refine ⟨?_, ?_, ?_⟩
  · intro t0 t1 h0 h1 hle
    rw [calc_of_both h0 h1, if_pos (show (0:ℚ) ≤ t1 - t0 by linarith)]
  · intro t0 h0 h1
    exact calc_of_noreply h0 h1
  · exact calc_of_nocustomer

/-- C3 witness: a customer message at time 0 and an agent reply at 29 seconds
gives verdict Qualified with latency 29. -/
theorem C3_timing_witness :
    calculate_timing_metrics [⟨some 0, "Customer"⟩, ⟨some 29, "Agent"⟩] =
      (some 29, Qual.Qualified) := by
  have h := (C3_timing [⟨some 0, "Customer"⟩, ⟨some 29, "Agent"⟩]).1 0 29
    (by decide) (by decide) (by norm_num)
  rw [h]
  norm_num [pyRound2, roundHalfEven]

/-- Concrete message list for claim C4: the first customer message is at time
10 and the only agent message is timestamped 5, before it. -/
def C4ex : List TMsg := [⟨some 10, "Customer"⟩, ⟨some 5, "Agent"⟩]

/-- C4 counterexample: with a first customer message at time 10 followed by an
agent message timestamped 5 (before it, and no agent message at or after 10),
the claim demands AnomalousTime, but the analyzer reports NoReply with no
latency: agent messages timed before the first customer time fail the scan
guard msg_time >= first_customer_time and are never recorded as replies, so
the anomaly branch of the source is unreachable. -/
theorem C4_counterexample :
    firstCustomerTime C4ex = some 10 ∧
    restAfterFirstCustomer C4ex = [⟨some 5, "Agent"⟩] ∧
    calculate_timing_metrics C4ex = (none, Qual.NoReply) ∧
    Qual.NoReply ≠ Qual.AnomalousTime := by
  refine ⟨by decide, by decide, ?_, by decide⟩
  exact @calc_of_noreply C4ex 10 (by decide) (by decide)

/-- C4 (amended): for a message list with a first timed customer message at t0,
an agent reply timestamped before t0, and no agent message timed at or after
t0, the verdict is NoReply and the latency is absent; the AnomalousTime
verdict is unreachable. -/
theorem C4_amended (msgs : List TMsg) (t0 : ℚ)
    (h0 : firstCustomerTime msgs = some t0)
    (hbefore : ∃ m ∈ restAfterFirstCustomer msgs,
        m.sender = "Agent" ∧ ∃ t, m.time = some t ∧ t < t0)
    (hnone : ∀ m ∈ restAfterFirstCustomer msgs, m.sender = "Agent" →
        ∀ t, m.time = some t → t < t0) :
    calculate_timing_metrics msgs = (none, Qual.NoReply) := by
  have hfind : (restAfterFirstCustomer msgs).find? (isQualifyingReply t0) = none := by
    refine List.find?_eq_none.mpr fun m hm => ?_
    unfold isQualifyingReply
    by_cases hA : m.sender = "Agent"
    · cases hmt : m.time with
      | none => simp [hmt]
      | some t =>
        have := hnone m hm hA t hmt
        simp [hmt, hA, not_le.mpr this]
    · simp [hA]
  have h1 : firstAgentReplyTime msgs = none := by
    unfold firstAgentReplyTime
    rw [h0]
    replace hfind :
        ((restAfterFirstCustomer msgs).find? (isQualifyingReply t0)).bind TMsg.time =
          none := by
      rw [hfind]
      rfl
    exact hfind
  exact calc_of_noreply h0 h1

/-- C4 witness: the amended theorem applied to the concrete list with customer
at 10 and agent at 5. -/
theorem C4_amended_witness :
    calculate_timing_metrics C4ex = (none, Qual.NoReply) := by
  refine C4_amended C4ex 10 (by decide) ?_ (by decide)
  exact ⟨⟨some 5, "Agent"⟩, by decide, by decide, 5, by decide, by norm_num⟩

theorem roundHalfEven_nonneg {q : ℚ} (h : 0 ≤ q) : 0 ≤ roundHalfEven q := by
  have hfl : (0:ℤ) ≤ ⌊q⌋ := Int.floor_nonneg.mpr h
  unfold roundHalfEven
  split
  · exact hfl
  · split
    · omega
    · split
      · exact hfl
      · omega

theorem pyRound2_nonneg {q : ℚ} (h : 0 ≤ q) : 0 ≤ pyRound2 q := by
  have h1 : (0:ℤ) ≤ roundHalfEven (q * 100) := roundHalfEven_nonneg (by positivity)
  unfold pyRound2
  have h2 : (0:ℚ) ≤ (roundHalfEven (q * 100) : ℚ) := by exact_mod_cast h1
  exact div_nonneg h2 (by norm_num)

/-- C10: whenever the analyzer returns a numeric first-reply latency it is
nonnegative: a reply is only recorded with parsed time at or after the first
customer time, and rounding preserves the sign. -/
theorem C10_latency_nonneg (msgs : List TMsg) (l : ℚ) (q : Qual)
    (h : calculate_timing_metrics msgs = (some l, q)) : 0 ≤ l := by
  cases h0 : firstCustomerTime msgs with
  | none =>
    rw [calc_of_nocustomer h0] at h
    exact absurd h (by simp)
  | some c =>
    cases h1 : firstAgentReplyTime msgs with
    | none =>
      rw [calc_of_noreply h0 h1] at h
      exact absurd h (by simp)
    | some r =>
      have hcr : c ≤ r := le_of_firstAgentReplyTime_some h0 h1
      rw [calc_of_both h0 h1, if_pos (show (0:ℚ) ≤ r - c by linarith)] at h
      have hfst := congrArg Prod.fst h
      simp at hfst
      rw [← hfst]
      exact pyRound2_nonneg (by linarith)

/-- C10 witness: the nonnegativity theorem applied to a concrete run returning
latency 5. -/
theorem C10_latency_nonneg_witness :
    calculate_timing_metrics [⟨some 0, "Customer"⟩, ⟨some 5, "Agent"⟩] =
      (some 5, Qual.Qualified) ∧ (0:ℚ) ≤ 5 := by
  have hrun : calculate_timing_metrics [⟨some 0, "Customer"⟩, ⟨some 5, "Agent"⟩] =
      (some 5, Qual.Qualified) := by
    rw [@calc_of_both _ 0 5 (by decide) (by decide)]
    norm_num [pyRound2, roundHalfEven]
  exact ⟨hrun, C10_latency_nonneg _ 5 Qual.Qualified hrun⟩

/-- Characters allowed in a URL scheme after the leading letter. -/
def schemeChar (c : Char) : Bool :=
  c.isAlphanum || c = '+' || c = '-' || c = '.'

/-- Python `str.split(sep)` for a single-character separator on the
character list. -/
def splitCh (sep : Char) : List Char → List (List Char)
  | [] => [[]]
  | c :: rest =>
    let r := splitCh sep rest
    if c = sep then [] :: r
    else (c :: r.headD []) :: r.tail

/-- Hexadecimal digit as accepted by `ipaddress` hextets. -/
def isHexCh (c : Char) : Bool :=
  c.isDigit || ('a' ≤ c ∧ c ≤ 'f') || ('A' ≤ c ∧ c ≤ 'F')

/-- One IPv6 hextet (`IPv6Address._parse_hextet`): non-empty, at most four
characters, hexadecimal only. -/
def hextetOk (h : List Char) : Bool :=
  h ≠ [] && h.length ≤ 4 && h.all isHexCh

/-- One IPv4 octet (`IPv4Address._parse_octet`): non-empty decimal digits, at
most three of them, no leading zero, value at most 255. -/
def octetOk (o : List Char) : Bool :=
  o ≠ [] && o.all Char.isDigit && o.length ≤ 3 &&
    (o.length = 1 || o.headD '0' ≠ '0') &&
    o.foldl (fun acc c => 10 * acc + (c.toNat - 48)) 0 ≤ 255

/-- Valid dotted-quad IPv4 address text (`IPv4Address._ip_int_from_string`). -/
def ipv4Ok (s : List Char) : Bool :=
  let parts := splitCh '.' s
  parts.length = 4 && parts.all octetOk

/-- Indices of empty parts strictly between the endpoints of a colon-split
address: the candidate positions of a `::` zero-run. -/
def interiorEmpties (parts : List (List Char)) : List ℕ :=
  (List.range parts.length).filter fun i =>
    0 < i ∧ i + 1 < parts.length ∧ parts.getD i [] = []

/-- The hextet-level validity of a colon-split IPv6 address
(`IPv6Address._ip_int_from_string` after the IPv4-tail substitution): at most
nine parts; without a `::` exactly eight non-empty valid hextets; with one
`::` the empty endpoints must adjoin it, at least one group is skipped, and
the surviving parts are valid hextets. -/
def hextetsOk (parts : List (List Char)) : Bool :=
  if 9 < parts.length then false
  else
    match interiorEmpties parts with
    | [] =>
      parts.length = 8 && parts.headD [] ≠ [] && parts.getLastD [] ≠ [] &&
        parts.all hextetOk
    | [i] =>
      (decide (parts.headD [] = [] → i = 1)) &&
      (decide (parts.getLastD [] = [] → i = parts.length - 2)) &&
      (let hi := if parts.headD [] = [] then i - 1 else i
       let lo := if parts.getLastD [] = [] then parts.length - i - 2
                 else parts.length - i - 1
       hi + lo < 8 && (parts.take hi).all hextetOk &&
         (parts.drop (parts.length - lo)).all hextetOk)
    | _ => false

/-- Valid IPv6 address text: at least three colon-separated parts; a dotted
last part must be a valid IPv4 address and stands for two trailing hextets. -/
def ipv6AddrOk (a : List Char) : Bool :=
  let parts := splitCh ':' a
  if parts.length < 3 then false
  else if (parts.getLastD []).contains '.' then
    ipv4Ok (parts.getLastD []) && hextetsOk (parts.dropLast ++ [['0'], ['0']])
  else hextetsOk parts

/-- IPv6 address with an optional `%zone` suffix (`IPv6Address._split_scope_id`):
the zone, when the percent sign is present, is non-empty and free of further
percent signs. -/
def ipv6Ok (h : List Char) : Bool :=
  if h.contains '%' then
    let addr := h.takeWhile (· ≠ '%')
    let zone := (h.dropWhile (· ≠ '%')).drop 1
    zone ≠ [] && !zone.contains '%' && ipv6AddrOk addr
  else ipv6AddrOk h

/-- The IPvFuture bracket form `v<hex>+.<anything>+` accepted by
`urllib.parse._check_bracketed_host`. -/
def ipvFutureOk : List Char → Bool
  | 'v' :: t =>
    let hexes := t.takeWhile isHexCh
    hexes ≠ [] && (t.drop hexes.length).headD ' ' = '.' &&
      (t.drop (hexes.length + 1)) ≠ []
  | _ => false

/-- `_check_bracketed_host`: a bracketed host starting with `v` must be an
IPvFuture literal, any other must parse as an IPv6 address (an IPv4 address
in brackets also raises, so validity reduces to these two forms). -/
def bracketHostOk (h : List Char) : Bool :=
  if h.headD ' ' = 'v' then ipvFutureOk h else ipv6Ok h

/-- The text between the first opening bracket of the authority and the first
closing bracket after it (`netloc.partition('[')[2].partition(']')[0]`). -/
def bracketContent (netloc : List Char) : List Char :=
  ((netloc.dropWhile (· ≠ '[')).drop 1).takeWhile (· ≠ ']')

/-- `urlsplit` input sanitation: strip leading C0-control-or-space characters,
then delete every tab, carriage return and line feed. -/
def urlPreprocess (l : List Char) : List Char :=
  (l.dropWhile (fun c => c.toNat ≤ 32)).filter
    (fun c => !(c = '\t' ∨ c = '\r' ∨ c = '\n'))

/-- Model of Python `urllib.parse.urlparse(url).netloc` (CPython 3.11
`urlsplit`): sanitize, strip a leading scheme-colon when present, then, if
the remainder starts with two slashes, the authority runs up to the first
slash, question mark or hash; otherwise the authority is empty.  `none`
models the `ValueError` raised for an authority with a mismatched square
bracket (Invalid IPv6 URL) or a bracketed host that is neither a valid IPv6
address nor an IPvFuture literal. -/
def urlparse_netloc (url : String) : Option String :=
  let l := urlPreprocess url.data
  let rest :=
    match l.findIdx? (· = ':') with
    | some i =>
      if 0 < i ∧ (l.take i).all schemeChar ∧ (l.headD '0').isAlpha then l.drop (i + 1)
      else l
    | none => l
  if List.isPrefixOf (("//").data) rest then
    let netloc := (rest.drop 2).takeWhile fun c => !(c == '/') && !(c == '?') && !(c == '#')
    if (netloc.contains '[' && !netloc.contains ']') ||
        (netloc.contains ']' && !netloc.contains '[') then none
    else if netloc.contains '[' && netloc.contains ']' then
      if bracketHostOk (bracketContent netloc) then some (String.mk netloc) else none
    else some (String.mk netloc)
  else some ""

/-- Python `s.replace("www.", "")`: drop every occurrence of `www.`,
scanning left to right. -/
def dropWWW : List Char → List Char
  | 'w' :: 'w' :: 'w' :: '.' :: rest => dropWWW rest
  | c :: rest => c :: dropWWW rest
  | [] => []

/-- Paid Google URL parameters (src/analyze_traffic_sources.py line 21); the
source tests these as bare substrings, without a trailing equals sign. -/
def google_paid_params : List String :=
  ["gad_source", "gclid", "gad_campaignid", "gbraid", "wbraid"]

/-- Paid Facebook URL parameters (src/analyze_traffic_sources.py line 23). -/
def facebook_paid_params : List String := ["utm_source=fb", "fbclid"]

/-- Generic paid URL parameters (src/analyze_traffic_sources.py line 24). -/
def other_paid_params : List String := ["utm_campaign"]

/-- `analyze_traffic_source` (src/analyze_traffic_sources.py lines 13-63).
When the urlparse call raises (mismatched bracket or invalid bracketed host
in the authority), the bare except of lines 56-57 yields the channel
`other`. -/
def analyze_traffic_source (referrer start_url : String) : String :=
  let combined_url := pyLower (referrer ++ " " ++ start_url)
  let google_utm_paid :=
    pyContains ("utm_source=google") combined_url &&
      pyContains ("utm_medium=cpc") combined_url
  let is_google_paid :=
    google_paid_params.any (fun p => pyContains p combined_url) || google_utm_paid
  let is_facebook_paid := facebook_paid_params.any (fun p => pyContains p combined_url)
  let is_other_paid := other_paid_params.any (fun p => pyContains p combined_url)
  let is_paid := is_google_paid || is_facebook_paid || is_other_paid
  let channel :=
    if referrer = "" then "direct"
    else if pyContains ("google") (pyLower referrer) then "google"
    else if pyContains ("youtube") (pyLower referrer) ||
        pyContains ("youtu.be") (pyLower referrer) then "youtube"
    else if pyContains ("facebook") (pyLower referrer) ||
        pyContains ("fb.com") (pyLower referrer) ||
        pyContains ("m.facebook.com") (pyLower referrer) then "facebook"
    else if pyContains ("instagram") (pyLower referrer) then "instagram"
    else if pyContains ("bing") (pyLower referrer) then "bing"
    else if pyContains ("yandex") (pyLower referrer) then "yandex"
    else if pyContains ("vertu.com") (pyLower referrer) then "website_internal"
    else
      match urlparse_netloc referrer with
      | some netloc => "website_" ++ String.mk (dropWWW (pyLower netloc).data)
      | none => "other"
  if is_paid then channel ++ "_paid" else channel ++ "_organic"

example : analyze_traffic_source ("") ("https://vertu.com/?utm_source=fb") =
    "direct_paid" := by decide

example : analyze_traffic_source ("http://[abc") ("") = "other_organic" := by decide

example : analyze_traffic_source ("https://www.example.net/p") ("") =
    "website_example.net_organic" := by decide

example : analyze_traffic_source ("https://www.google.com/")
    ("https://vertu.com/?gclid=abc") = "google_paid" := by decide

example : analyze_traffic_source ("https://www.google.com/") ("https://vertu.com/") =
    "google_organic" := by decide

/-- Paid-signal detection exactly as claim C6 words it: every single-token
parameter carries a trailing equals sign. -/
def claimC6IsPaid (referrer start_url : String) : Bool :=
  let combined := pyLower (referrer ++ " " ++ start_url)
  ((["gclid=", "gad_source=", "gad_campaignid=", "gbraid=", "wbraid="] : List String).any
      (fun p => pyContains p combined) ||
    (pyContains ("utm_source=google") combined && pyContains ("utm_medium=cpc") combined)) ||
  (["fbclid=", "utm_source=fb"] : List String).any (fun p => pyContains p combined) ||
  pyContains ("utm_campaign=") combined

/-- Ordered base-channel substring table of claim C6. -/
def channelTable : List (List String × String) :=
  [(["google"], "google"),
   (["youtube", "youtu.be"], "youtube"),
   (["facebook", "fb.com", "m.facebook.com"], "facebook"),
   (["instagram"], "instagram"),
   (["bing"], "bing"),
   (["yandex"], "yandex"),
   (["vertu.com"], "website_internal")]

/-- First matching row of an ordered substring table against the lowercased
referrer. -/
def firstMatch (referrer : String) : List (List String × String) → Option String
  | [] => none
  | row :: rest =>
    if row.1.any (fun p => pyContains p (pyLower referrer)) then some row.2
    else firstMatch referrer rest

/-- Paid-signal detection of claim C6 amended: the single-token parameters are
bare substrings without the equals sign, as the source tests them; the
lowercased concatenation and the three independent families are as claimed. -/
def specIsPaid (referrer start_url : String) : Bool :=
  let combined := pyLower (referrer ++ " " ++ start_url)
  (google_paid_params.any (fun p => pyContains p combined) ||
    (pyContains ("utm_source=google") combined && pyContains ("utm_medium=cpc") combined)) ||
  facebook_paid_params.any (fun p => pyContains p combined) ||
  other_paid_params.any (fun p => pyContains p combined)

/-- Base channel as claim C6 words it: direct for an empty referrer, else the
first match in the ordered substring table, else website_ plus the
www-stripped lowercased URL authority, or other when the referrer is
unparsable (urlparse raises). -/
def specBaseChannel (referrer : String) : String :=
  if referrer = "" then "direct"
  else
    match firstMatch referrer channelTable with
    | some name => name
    | none =>
      match urlparse_netloc referrer with
      | some netloc => "website_" ++ String.mk (dropWWW (pyLower netloc).data)
      | none => "other"

/-- Channel label as claim C6 describes it (with the amended paid test): the
base channel suffixed _paid or _organic. -/
def specChannelLabel (referrer start_url : String) : String :=
  specBaseChannel referrer ++ (if specIsPaid referrer start_url then "_paid" else "_organic")

/-- Datetime fields as produced by `datetime.fromisoformat`. -/
structure PyDateTime where
  year : ℕ
  month : ℕ
  day : ℕ
  hour : ℕ
  minute : ℕ
  second : ℕ
  microsecond : ℕ
  deriving DecidableEq, Repr

/-- Numeric value of a decimal digit character. -/
def digitVal (c : Char) : Option ℕ :=
  if c.isDigit then some (c.toNat - 48) else none

/-- Parse two decimal digits. -/
def parse2 : List Char → Option (ℕ × List Char)
  | a :: b :: rest =>
    match digitVal a, digitVal b with
    | some x, some y => some (10 * x + y, rest)
    | _, _ => none
  | _ => none

/-- Parse four decimal digits. -/
def parse4 (l : List Char) : Option (ℕ × List Char) := do
  let (hi, rest) ← parse2 l
  let (lo, rest2) ← parse2 rest
  some (100 * hi + lo, rest2)

/-- Consume one expected character. -/
def expect (c : Char) : List Char → Option (List Char)
  | d :: rest => if d = c then some rest else none
  | [] => none

/-- Gregorian leap year. -/
def isLeap (y : ℕ) : Bool := (y % 4 = 0 && y % 100 ≠ 0) || y % 400 = 0

/-- Length of a month, as validated by the datetime constructor. -/
def daysInMonth (y m : ℕ) : ℕ :=
  if m = 2 then (if isLeap y then 29 else 28)
  else if m = 4 ∨ m = 6 ∨ m = 9 ∨ m = 11 then 30
  else 31

def pow10 : ℕ → ℕ
  | 0 => 1
  | n + 1 => 10 * pow10 n

/-- Value of a run of decimal digit characters. -/
def digitsVal (l : List Char) : ℕ :=
  l.foldl (fun acc c => 10 * acc + (c.toNat - 48)) 0

/-- Day count since 1970-01-01 of a civil date (Hinnant's algorithm, as the
proleptic Gregorian calendar used by datetime). -/
def daysFromCivil (y m d : ℤ) : ℤ :=
  let y' := if m ≤ 2 then y - 1 else y
  let era := (if 0 ≤ y' then y' else y' - 399) / 400
  let yoe := y' - era * 400
  let doy := (153 * (if 2 < m then m - 3 else m + 9) + 2) / 5 + d - 1
  let doe := yoe * 365 + yoe / 4 - yoe / 100 + doy
  era * 146097 + (doe - 719468)

/-- Civil date of a day count since 1970-01-01 (inverse direction of
Hinnant's algorithm). -/
def civilFromDays (z : ℤ) : ℤ × ℤ × ℤ :=
  let z' := z + 719468
  let era := (if 0 ≤ z' then z' else z' - 146096) / 146097
  let doe := z' - era * 146097
  let yoe := (doe - doe / 1460 + doe / 36524 - doe / 146096) / 365
  let y := yoe + era * 400
  let doy := doe - (365 * yoe + yoe / 4 - yoe / 100)
  let mp := (5 * doy + 2) / 153
  let d := doy - (153 * mp + 2) / 5 + 1
  let m := if mp < 10 then mp + 3 else mp - 9
  (if m ≤ 2 then y + 1 else y, m, d)

/-- The separator position in a no-separator week-date string `YYYYWww[D]...`
(CPython's `_find_isoformat_datetime_separator`): scan the digit run from
index 7; a short run ends the date there, a longer one is split by the
parity of the index past the run. -/
def nosepWeekSep (l : List Char) : ℕ :=
  let idx := 7 + ((l.drop 7).takeWhile Char.isDigit).length
  if idx < 9 then idx else if idx % 2 = 1 then 8 else 7

/-- Position of the date/time separator character in a `fromisoformat` input
(CPython's `_find_isoformat_datetime_separator`): 10 for extended dates, 8
for basic dates and for extended week dates followed by a digit at index 10,
and the digit-run parity rule for no-separator week dates. -/
def isoSepPos (l : List Char) : ℕ :=
  if l.getD 4 ' ' = '-' then
    if l.getD 5 ' ' = 'W' then
      if 10 < l.length ∧ (l.getD 10 ' ').isDigit then 8 else 10
    else 10
  else if l.getD 4 ' ' = 'W' then nosepWeekSep l
  else 8

/-- The field ranges the datetime constructor enforces on a civil date. -/
def validYMD (y mo d : ℕ) : Bool :=
  decide (1 ≤ y ∧ y ≤ 9999 ∧ 1 ≤ mo ∧ mo ≤ 12 ∧ 1 ≤ d ∧ d ≤ daysInMonth y mo)

/-- An ISO year with 53 weeks: January 1st falls on a Thursday, or on a
Wednesday of a leap year (`_isoweek_to_gregorian`).  Day 0 of the epoch,
1970-01-01, was a Thursday. -/
def isoLongYear (y : ℕ) : Bool :=
  let d := daysFromCivil y 1 1
  (d + 4).fmod 7 = 4 ∨ ((d + 4).fmod 7 = 3 ∧ isLeap y)

/-- Epoch day count of the Monday starting ISO week 1 of a year
(`_isoweek1monday`). -/
def isoWeek1Monday (y : ℕ) : ℤ :=
  let fd := daysFromCivil y 1 1
  let fw := (fd + 3).fmod 7
  fd - fw + (if 3 < fw then 7 else 0)

/-- Gregorian date of an ISO week date (`_isoweek_to_gregorian`): week 1-52,
or 53 in a long year; weekday 1-7; the resulting year must stay within the
datetime range. -/
def isoWeekDate (y w d : ℕ) : Option (ℕ × ℕ × ℕ) :=
  if 1 ≤ y ∧ y ≤ 9999 ∧ 1 ≤ w ∧ (w ≤ 52 ∨ (w = 53 ∧ isoLongYear y = true)) ∧
      1 ≤ d ∧ d ≤ 7 then
    let days := isoWeek1Monday y + 7 * ((w : ℤ) - 1) + ((d : ℤ) - 1)
    let c := civilFromDays days
    if 1 ≤ c.1 ∧ c.1 ≤ 9999 then some (c.1.toNat, c.2.1.toNat, c.2.2.toNat) else none
  else none

/-- The date part of a `fromisoformat` input (`_parse_isoformat_date`):
extended `YYYY-MM-DD`, basic `YYYYMMDD`, extended week `YYYY-Www[-D]` and
basic week `YYYYWww[D]`, fully consumed, with datetime range validation. -/
def parseIsoDate (l : List Char) : Option (ℕ × ℕ × ℕ) := do
  let (y, r) ← parse4 l
  if r.headD ' ' = '-' then
    if (r.drop 1).headD ' ' = 'W' then do
      let (w, r3) ← parse2 ((r.drop 1).drop 1)
      if r3 = [] then isoWeekDate y w 1
      else if r3.length = 2 ∧ r3.headD ' ' = '-' then do
        let dv ← digitVal (r3.getD 1 ' ')
        isoWeekDate y w dv
      else none
    else do
      let (mo, r3) ← parse2 (r.drop 1)
      let r4 ← expect '-' r3
      let (d, r5) ← parse2 r4
      if r5 = [] ∧ validYMD y mo d = true then pure (y, mo, d) else none
  else if r.headD ' ' = 'W' then do
    let (w, r3) ← parse2 (r.drop 1)
    if r3 = [] then isoWeekDate y w 1
    else if r3.length = 1 then do
      let dv ← digitVal (r3.headD ' ')
      isoWeekDate y w dv
    else none
  else do
    let (mo, r3) ← parse2 r
    let (d, r5) ← parse2 r3
    if r5 = [] ∧ validYMD y mo d = true then pure (y, mo, d) else none

/-- A fractional-second run after the decimal sign: the first six characters
must be digits and give the microseconds (scaled up when fewer than six); in
the time part the characters past the sixth are ignored when a timezone
follows (`tzp`) and must be digits otherwise — the tolerance CPython's C
parser exhibits before a timezone marker. -/
def parseFracC (tzp : Bool) (l : List Char) : Option ℕ :=
  if l = [] then none
  else if ¬ ((l.take 6).all Char.isDigit) then none
  else if ¬ tzp ∧ ¬ ((l.drop 6).all Char.isDigit) then none
  else if l.length < 6 then some (digitsVal (l.take 6) * pow10 (6 - l.length))
  else some (digitsVal (l.take 6))

/-- Third clock component (`SS`) and what may follow it: end of input, a
single ignored character directly before a timezone marker (`tzp`), a `.` or
`,` fraction, a `:` fraction in the colon-separated form (`hs`), or — in the
no-separator form — a bare digit-run fraction. -/
def hmsTail2 (tzp hs : Bool) (h mi : ℕ) (l : List Char) : Option (ℕ × ℕ × ℕ × ℕ) := do
  let (s, r) ← parse2 l
  if r = [] then pure (h, mi, s, 0)
  else if r.length = 1 then (if tzp then pure (h, mi, s, 0) else none)
  else if r.headD ' ' = '.' ∨ r.headD ' ' = ',' then do
    let us ← parseFracC tzp (r.drop 1)
    pure (h, mi, s, us)
  else if r.headD ' ' = ':' then
    (if hs then do
      let us ← parseFracC tzp (r.drop 1)
      pure (h, mi, s, us)
    else none)
  else if hs then none
  else do
    let us ← parseFracC tzp r
    pure (h, mi, s, us)

/-- Second clock component (`MM`) and what may follow it (see `hmsTail2`);
a further `:` leads to the seconds in the separated form, a digit pair
directly in the no-separator form. -/
def hmsTail1 (tzp hs : Bool) (h : ℕ) (l : List Char) : Option (ℕ × ℕ × ℕ × ℕ) := do
  let (mi, r) ← parse2 l
  if r = [] then pure (h, mi, 0, 0)
  else if r.length = 1 then (if tzp then pure (h, mi, 0, 0) else none)
  else if r.headD ' ' = '.' ∨ r.headD ' ' = ',' then do
    let us ← parseFracC tzp (r.drop 1)
    pure (h, mi, 0, us)
  else if r.headD ' ' = ':' then
    (if hs then hmsTail2 tzp hs h mi (r.drop 1) else none)
  else if hs then none
  else hmsTail2 tzp hs h mi r

/-- CPython's `parse_hh_mm_ss_ff` on a clock string `HH[:MM[:SS]][frac]` or
`HH[MM[SS]][frac]`: two-digit components, a consistent separator style, an
optional fraction after any component, and — before a timezone marker
(`tzp`) — one trailing character after a complete component is ignored. -/
def parseHMSF (tzp : Bool) (l : List Char) : Option (ℕ × ℕ × ℕ × ℕ) := do
  let (h, r) ← parse2 l
  if r = [] then pure (h, 0, 0, 0)
  else if r.length = 1 then (if tzp then pure (h, 0, 0, 0) else none)
  else if r.headD ' ' = '.' ∨ r.headD ' ' = ',' then do
    let us ← parseFracC tzp (r.drop 1)
    pure (h, 0, 0, us)
  else if r.headD ' ' = ':' then hmsTail1 tzp true h (r.drop 1)
  else hmsTail1 tzp false h r

/-- Characters at which the timezone part of a time string begins. -/
def isTzStart (c : Char) : Bool := c = 'Z' || c = '+' || c = '-'

/-- The timezone part of a time string: everything from the first `Z`, `+`
or `-` on. -/
def tzRest (l : List Char) : List Char :=
  l.drop ((l.takeWhile (fun c => !isTzStart c)).length)

/-- The time part of a `fromisoformat` input (`_parse_isoformat_time`): the
clock before the first timezone marker, then either nothing, a final `Z`
(UTC), or a signed clock read as an offset.  The offset, in microseconds, is
the signed total of the offset clock; its fraction is dropped when the
whole-second part is zero (CPython returns the interned UTC zone then), and
the total must stay strictly below 24 hours. -/
def parseIsoTime (l : List Char) : Option (ℕ × ℕ × ℕ × ℕ × Option ℤ) := do
  let (h, mi, s, us) ← parseHMSF (!(tzRest l).isEmpty)
    (l.takeWhile (fun c => !isTzStart c))
  if tzRest l = [] then pure (h, mi, s, us, none)
  else if tzRest l = ['Z'] then pure (h, mi, s, us, some 0)
  else if (tzRest l).headD ' ' = 'Z' then none
  else do
    let (th, tm, ts, tus) ← parseHMSF false ((tzRest l).drop 1)
    if (3600 * th + 60 * tm + ts) * 1000000 + tus < 86400000000 then
      pure (h, mi, s, us,
        some ((if (tzRest l).headD ' ' = '-' then -1 else 1) *
          (if 3600 * th + 60 * tm + ts = 0 then 0
           else ((3600 * th + 60 * tm + ts : ℕ) : ℤ) * 1000000 + tus)))
    else none

/-- Model of `datetime.fromisoformat` as implemented by CPython 3.11's C
parser: the date/time separator located by `isoSepPos`, the date parsed by
`parseIsoDate`, an arbitrary single separator character, the clock and
timezone by `parseIsoTime`, and the constructor's field ranges enforced.
The result carries the fields and, for an aware input, the UTC offset in
microseconds.  Inputs with multi-character digit components exploiting
`int()` leniency (signs or blanks inside a two-character slice) are outside
the model. -/
def pyFromIso (s : String) : Option (PyDateTime × Option ℤ) := do
  let (y, mo, d) ← parseIsoDate (s.data.take (isoSepPos s.data))
  if s.data.length ≤ isoSepPos s.data then pure (⟨y, mo, d, 0, 0, 0, 0⟩, none)
  else do
    let (h, mi, sc, us, off) ← parseIsoTime (s.data.drop (isoSepPos s.data + 1))
    if h ≤ 23 ∧ mi ≤ 59 ∧ sc ≤ 59 then pure (⟨y, mo, d, h, mi, sc, us⟩, off)
    else none

/-- Microseconds since the epoch of the wall-clock fields. -/
def toEpochUs (dt : PyDateTime) : ℤ :=
  (daysFromCivil dt.year dt.month dt.day * 86400 +
    dt.hour * 3600 + dt.minute * 60 + dt.second) * 1000000 + dt.microsecond

/-- The microsecond instant of `datetime.min`, 0001-01-01T00:00:00. -/
def minEpochUs : ℤ := toEpochUs ⟨1, 1, 1, 0, 0, 0, 0⟩

/-- The microsecond instant of `datetime.max`, 9999-12-31T23:59:59.999999. -/
def maxEpochUs : ℤ := toEpochUs ⟨9999, 12, 31, 23, 59, 59, 999999⟩

def digitChar (n : ℕ) : Char :=
  match n % 10 with
  | 0 => '0' | 1 => '1' | 2 => '2' | 3 => '3' | 4 => '4'
  | 5 => '5' | 6 => '6' | 7 => '7' | 8 => '8' | _ => '9'

def pad2 (n : ℕ) : List Char := [digitChar (n / 10), digitChar n]

def pad4 (n : ℕ) : List Char :=
  [digitChar (n / 1000), digitChar (n / 100), digitChar (n / 10), digitChar n]

/-- The unpadded decimal rendering glibc's strftime gives `%Y`, for the
year range 1-9999 that survives the datetime range checks (the three
leading-digit branches cover every such year). -/
def natDecimal (n : ℕ) : List Char :=
  (if n < 10 then [] else if n < 100 then [digitChar (n / 10)]
   else if n < 1000 then [digitChar (n / 100), digitChar (n / 10)]
   else [digitChar (n / 1000), digitChar (n / 100), digitChar (n / 10)]) ++ [digitChar n]

/-- `dt_utc.astimezone(HKT).strftime('%Y-%m-%d %H:%M:%S')` on the microsecond
instant: shift by UTC+8, split into civil day and truncated clock seconds,
and format the civil fields — the year unpadded as glibc prints `%Y`, the
other fields zero-padded to two digits. -/
def renderHKT (u : ℤ) : String :=
  let e8 := u + 28800000000
  let days := e8.fdiv 86400000000
  let remUs := (e8.fmod 86400000000).toNat
  let rem := remUs / 1000000
  let c := civilFromDays days
  String.mk (natDecimal c.1.toNat ++ ('-' :: pad2 c.2.1.toNat) ++ ('-' :: pad2 c.2.2.toNat) ++
    (' ' :: pad2 (rem / 3600)) ++ (':' :: pad2 (rem % 3600 / 60)) ++ (':' :: pad2 (rem % 60)))

/-- Python `created_at.replace('Z', '+00:00')` on the character list; the
pattern is a single character, so the scan is character-wise. -/
def replaceZData : List Char → List Char
  | [] => []
  | c :: rest =>
    if c = 'Z' then '+' :: '0' :: '0' :: ':' :: '0' :: '0' :: replaceZData rest
    else c :: replaceZData rest

def replaceZ (s : String) : String := String.mk (replaceZData s.data)

/-- The warning the source prints to stderr when `_format_time` falls back
to the original string; modelled up to the quote characters and the trailing
exception text of the Python f-string. -/
def ftWarning (created_at chat_id : String) : String :=
  ("WARNING: Could not parse time ") ++ created_at ++ (" for chat ID ") ++ chat_id

/-- `ChatDataProcessor._format_time` (src/data_conversion_pipeline.py lines
251-266): an empty string maps to the empty string; otherwise Z is replaced by
+00:00 and the string parsed as ISO; a zone-naive result is tagged UTC; the
instant is converted to UTC+8 and formatted as YYYY-MM-DD HH:MM:SS.  The
broad except returns the original string with the warning both when the
parse raises and when `astimezone` overflows — the UTC instant lies below
`datetime.min` after subtracting the offset, or above `datetime.max` after
adding the eight hours. -/
def format_time (created_at chat_id : String) : String × Option String :=
  if created_at = "" then ("", none)
  else
    match pyFromIso (replaceZ created_at) with
    | some (dt, off) =>
      if minEpochUs ≤ toEpochUs dt - off.getD 0 ∧
          toEpochUs dt - off.getD 0 + 28800000000 ≤ maxEpochUs then
        (renderHKT (toEpochUs dt - off.getD 0), none)
      else (created_at, some (ftWarning created_at chat_id))
    | none => (created_at, some (ftWarning created_at chat_id))

/-- Canonical zone-naive ISO rendering YYYY-MM-DDTHH:MM:SS. -/
def isoNaive (dt : PyDateTime) : String :=
  String.mk (pad4 dt.year ++ ('-' :: pad2 dt.month) ++ ('-' :: pad2 dt.day) ++
    ('T' :: pad2 dt.hour) ++ (':' :: pad2 dt.minute) ++ (':' :: pad2 dt.second))

/-- Field ranges accepted by the datetime constructor, with zero microseconds
(as rendered by isoNaive). -/
def validDT (dt : PyDateTime) : Bool :=
  decide (1 ≤ dt.year ∧ dt.year ≤ 9999 ∧ 1 ≤ dt.month ∧ dt.month ≤ 12 ∧
    1 ≤ dt.day ∧ dt.day ≤ daysInMonth dt.year dt.month ∧
    dt.hour ≤ 23 ∧ dt.minute ≤ 59 ∧ dt.second ≤ 59 ∧ dt.microsecond = 0)

theorem digitVal_digitChar (k : ℕ) : digitVal (digitChar k) = some (k % 10) := by
  unfold digitChar
  have h : k % 10 < 10 := Nat.mod_lt _ (by norm_num)
  revert h
  generalize k % 10 = r
  intro h
  interval_cases r <;> decide

theorem digitChar_ne_Z (k : ℕ) : digitChar k ≠ 'Z' := by
  unfold digitChar
  have h : k % 10 < 10 := Nat.mod_lt _ (by norm_num)
  revert h
  generalize k % 10 = r
  intro h
  interval_cases r <;> decide

theorem parse2_pad2 (n : ℕ) (rest : List Char) :
    parse2 (pad2 n ++ rest) = some (n % 100, rest) := by
  have e1 := digitVal_digitChar (n / 10)
  have e2 := digitVal_digitChar n
  simp only [pad2, List.cons_append, List.nil_append, parse2, e1, e2]
  congr 2
  omega

theorem parse4_pad4 (n : ℕ) (h : n < 10000) (rest : List Char) :
    parse4 (pad4 n ++ rest) = some (n, rest) := by
  have hdiv : n / 100 / 10 = n / 1000 := by omega
  have hp : pad4 n ++ rest = pad2 (n / 100) ++ (pad2 n ++ rest) := by
    simp only [pad4, pad2, List.cons_append, List.nil_append, hdiv]
  rw [hp]
  unfold parse4
  rw [parse2_pad2]
  simp only [Option.bind_eq_bind, Option.some_bind]
  rw [parse2_pad2]
  simp only [Option.some_bind]
  congr 2
  omega

theorem expect_cons (c : Char) (rest : List Char) : expect c (c :: rest) = some rest := by
  simp [expect]

theorem replaceZData_append (l m : List Char) :
    replaceZData (l ++ m) = replaceZData l ++ replaceZData m := by
  induction l with
  | nil => rfl
  | cons c rest ih => by_cases hc : c = 'Z' <;> simp [replaceZData, hc, ih]

theorem replaceZData_pad2 (n : ℕ) : replaceZData (pad2 n) = pad2 n := by
  simp [pad2, replaceZData, digitChar_ne_Z]

theorem replaceZData_pad4 (n : ℕ) : replaceZData (pad4 n) = pad4 n := by
  simp [pad4, replaceZData, digitChar_ne_Z]

theorem daysInMonth_le (y m : ℕ) : daysInMonth y m ≤ 31 := by
  unfold daysInMonth
  split
  · split <;> omega
  · split <;> omega

theorem replaceZData_isoNaive (dt : PyDateTime) :
    replaceZData (isoNaive dt).data = (isoNaive dt).data := by
  show replaceZData (pad4 dt.year ++ ('-' :: pad2 dt.month) ++ ('-' :: pad2 dt.day) ++
      ('T' :: pad2 dt.hour) ++ (':' :: pad2 dt.minute) ++ (':' :: pad2 dt.second)) = _
  simp +decide [isoNaive, replaceZData_append, replaceZData_pad2, replaceZData_pad4,
    replaceZData, digitChar_ne_Z, pad2, pad4, List.cons_append, List.append_assoc]

theorem digitChar_isDigit (k : ℕ) : (digitChar k).isDigit = true := by
  unfold digitChar
  have h : k % 10 < 10 := Nat.mod_lt _ (by norm_num)
  revert h
  generalize k % 10 = r
  intro h
  interval_cases r <;> decide

theorem digitChar_ne_of_not_digit (k : ℕ) (c : Char) (hc : c.isDigit = false) :
    digitChar k ≠ c := by
  intro he
  rw [← he, digitChar_isDigit] at hc
  exact absurd hc (by decide)

theorem isTzStart_digitChar (k : ℕ) : isTzStart (digitChar k) = false := by
  unfold digitChar
  have h : k % 10 < 10 := Nat.mod_lt _ (by norm_num)
  revert h
  generalize k % 10 = r
  intro h
  interval_cases r <;> decide

theorem parse2_pad2_nil (n : ℕ) : parse2 (pad2 n) = some (n % 100, []) := by
  have h := parse2_pad2 n []
  rwa [List.append_nil] at h

theorem takeWhile_eq_self_of_all {p : Char → Bool} {l : List Char}
    (h : ∀ c ∈ l, p c = true) : l.takeWhile p = l := by
  induction l with
  | nil => rfl
  | cons c t ih =>
    rw [List.takeWhile_cons, if_pos (h c (by simp)), ih fun x hx => h x (by simp [hx])]

theorem takeWhile_append_all {p : Char → Bool} {l : List Char} (m : List Char)
    (h : ∀ c ∈ l, p c = true) : (l ++ m).takeWhile p = l ++ m.takeWhile p := by
  induction l with
  | nil => rfl
  | cons c t ih =>
    rw [List.cons_append, List.takeWhile_cons, if_pos (h c (by simp)),
      ih fun x hx => h x (by simp [hx]), List.cons_append]

theorem pad2_not_tz (n : ℕ) : ∀ c ∈ pad2 n, (!isTzStart c) = true := by
  intro c hc
  simp only [pad2, List.mem_cons, List.not_mem_nil, or_false] at hc
  rcases hc with rfl | rfl <;> simp [isTzStart_digitChar]

theorem timepart_not_tz (h mi s : ℕ) :
    ∀ c ∈ pad2 h ++ (':' :: (pad2 mi ++ (':' :: pad2 s))), (!isTzStart c) = true := by
  intro c hc
  rcases List.mem_append.mp hc with h1 | h1
  · exact pad2_not_tz _ c h1
  rcases List.mem_cons.mp h1 with rfl | h1
  · decide
  rcases List.mem_append.mp h1 with h2 | h2
  · exact pad2_not_tz _ c h2
  rcases List.mem_cons.mp h2 with rfl | h2
  · decide
  exact pad2_not_tz _ c h2

theorem hmsTail2_render (tzp hs : Bool) (h mi s : ℕ) :
    hmsTail2 tzp hs h mi (pad2 s) = some (h, mi, s % 100, 0) := by
  unfold hmsTail2
  rw [parse2_pad2_nil]
  simp only [Option.bind_eq_bind, Option.some_bind]
  rw [if_pos trivial]
  rfl

theorem hmsTail1_render (tzp : Bool) (h mi s : ℕ) :
    hmsTail1 tzp true h (pad2 mi ++ (':' :: pad2 s)) =
      some (h, mi % 100, s % 100, 0) := by
  unfold hmsTail1
  rw [parse2_pad2]
  simp only [Option.bind_eq_bind, Option.some_bind]
  rw [if_neg (List.cons_ne_nil _ _)]
  rw [if_neg (show ¬ ((':' :: pad2 s) : List Char).length = 1 by simp [pad2])]
  rw [show ((':' :: pad2 s) : List Char).headD ' ' = ':' from rfl]
  rw [if_neg (by decide : ¬ ((':' : Char) = '.' ∨ (':' : Char) = ','))]
  rw [if_pos rfl, if_pos trivial]
  rw [show ((':' :: pad2 s) : List Char).drop 1 = pad2 s from rfl]
  rw [hmsTail2_render]

theorem parseHMSF_render (tzp : Bool) (h mi s : ℕ) :
    parseHMSF tzp (pad2 h ++ (':' :: (pad2 mi ++ (':' :: pad2 s)))) =
      some (h % 100, mi % 100, s % 100, 0) := by
  unfold parseHMSF
  rw [parse2_pad2]
  simp only [Option.bind_eq_bind, Option.some_bind]
  rw [if_neg (List.cons_ne_nil _ _)]
  rw [if_neg (show ¬ ((':' :: (pad2 mi ++ (':' :: pad2 s))) : List Char).length = 1 by
    simp [pad2])]
  rw [show ((':' :: (pad2 mi ++ (':' :: pad2 s))) : List Char).headD ' ' = ':' from rfl]
  rw [if_neg (by decide : ¬ ((':' : Char) = '.' ∨ (':' : Char) = ','))]
  rw [if_pos rfl]
  rw [show ((':' :: (pad2 mi ++ (':' :: pad2 s))) : List Char).drop 1 =
    pad2 mi ++ (':' :: pad2 s) from rfl]
  rw [hmsTail1_render]

theorem parseIsoTime_naive (h mi s : ℕ) :
    parseIsoTime (pad2 h ++ (':' :: (pad2 mi ++ (':' :: pad2 s)))) =
      some (h % 100, mi % 100, s % 100, 0, none) := by
  have htw : ((pad2 h ++ (':' :: (pad2 mi ++ (':' :: pad2 s)))) : List Char).takeWhile
      (fun c => !isTzStart c) = pad2 h ++ (':' :: (pad2 mi ++ (':' :: pad2 s))) :=
    takeWhile_eq_self_of_all (timepart_not_tz h mi s)
  have hrest : tzRest (pad2 h ++ (':' :: (pad2 mi ++ (':' :: pad2 s)))) = [] := by
    unfold tzRest
    rw [htw, List.drop_length]
  unfold parseIsoTime
  rw [htw, hrest]
  simp only [List.isEmpty_nil, Bool.not_true]
  rw [parseHMSF_render]
  simp only [Option.bind_eq_bind, Option.some_bind]
  rw [if_pos trivial]
  rfl

theorem parseIsoTime_utc (h mi s : ℕ) :
    parseIsoTime ((pad2 h ++ (':' :: (pad2 mi ++ (':' :: pad2 s)))) ++
        ('+' :: '0' :: '0' :: ':' :: '0' :: '0' :: [])) =
      some (h % 100, mi % 100, s % 100, 0, some 0) := by
  have htw : (((pad2 h ++ (':' :: (pad2 mi ++ (':' :: pad2 s)))) ++
      ('+' :: '0' :: '0' :: ':' :: '0' :: '0' :: [])) : List Char).takeWhile
      (fun c => !isTzStart c) = pad2 h ++ (':' :: (pad2 mi ++ (':' :: pad2 s))) := by
    rw [takeWhile_append_all _ (timepart_not_tz h mi s)]
    rw [show (('+' :: '0' :: '0' :: ':' :: '0' :: '0' :: []) : List Char).takeWhile
      (fun c => !isTzStart c) = [] from rfl]
    rw [List.append_nil]
  have hrest : tzRest ((pad2 h ++ (':' :: (pad2 mi ++ (':' :: pad2 s)))) ++
      ('+' :: '0' :: '0' :: ':' :: '0' :: '0' :: [])) =
      ('+' :: '0' :: '0' :: ':' :: '0' :: '0' :: []) := by
    unfold tzRest
    rw [htw]
    exact List.drop_left _ _
  unfold parseIsoTime
  rw [htw, hrest]
  rw [show (('+' :: '0' :: '0' :: ':' :: '0' :: '0' :: []) : List Char).isEmpty =
    false from rfl]
  simp only [Bool.not_false]
  rw [parseHMSF_render]
  simp only [Option.bind_eq_bind, Option.some_bind]
  rw [if_neg (List.cons_ne_nil _ _)]
  rw [if_neg (show ¬ (('+' :: '0' :: '0' :: ':' :: '0' :: '0' :: []) : List Char) =
    ['Z'] by decide)]
  rw [show (('+' :: '0' :: '0' :: ':' :: '0' :: '0' :: []) : List Char).headD ' ' =
    '+' from rfl]
  rw [if_neg (by decide : ¬ ('+' : Char) = 'Z')]
  rw [show (('+' :: '0' :: '0' :: ':' :: '0' :: '0' :: []) : List Char).drop 1 =
    ('0' :: '0' :: ':' :: '0' :: '0' :: []) from rfl]
  rw [show parseHMSF false (('0' :: '0' :: ':' :: '0' :: '0' :: []) : List Char) =
    some (0, 0, 0, 0) from by decide]
  simp only [Option.some_bind]
  norm_num

theorem getD4_split (y : ℕ) (m r : List Char) :
    ((pad4 y ++ ('-' :: m)) ++ r).getD 4 ' ' = '-' := rfl

theorem getD5_split (y n : ℕ) (m r : List Char) :
    ((pad4 y ++ ('-' :: (pad2 n ++ m))) ++ r).getD 5 ' ' = digitChar (n / 10) := rfl

theorem datepart_len (y mo d : ℕ) :
    ((pad4 y ++ ('-' :: (pad2 mo ++ ('-' :: pad2 d)))) : List Char).length = 10 := by
  simp [pad4, pad2]

theorem isoSepPos_render (y mo d : ℕ) (r : List Char) :
    isoSepPos ((pad4 y ++ ('-' :: (pad2 mo ++ ('-' :: pad2 d)))) ++ r) = 10 := by
  unfold isoSepPos
  rw [show ((pad4 y ++ ('-' :: (pad2 mo ++ ('-' :: pad2 d)))) ++ r).getD 4 ' ' =
    '-' from getD4_split y (pad2 mo ++ ('-' :: pad2 d)) r]
  rw [if_pos rfl]
  rw [show ((pad4 y ++ ('-' :: (pad2 mo ++ ('-' :: pad2 d)))) ++ r).getD 5 ' ' =
    digitChar (mo / 10) from getD5_split y mo ('-' :: pad2 d) r]
  rw [if_neg (digitChar_ne_of_not_digit _ _ (by decide))]

theorem parseIsoDate_render (y mo d : ℕ) (h1 : 1 ≤ y) (h2 : y ≤ 9999) (h3 : 1 ≤ mo)
    (h4 : mo ≤ 12) (h5 : 1 ≤ d) (h6 : d ≤ daysInMonth y mo) :
    parseIsoDate (pad4 y ++ ('-' :: (pad2 mo ++ ('-' :: pad2 d)))) = some (y, mo, d) := by
  have hdm : daysInMonth y mo ≤ 31 := daysInMonth_le y mo
  unfold parseIsoDate
  rw [parse4_pad4 y (by omega)]
  simp only [Option.bind_eq_bind, Option.some_bind]
  rw [show (('-' :: (pad2 mo ++ ('-' :: pad2 d))) : List Char).headD ' ' = '-' from rfl]
  rw [if_pos rfl]
  rw [show ((('-' :: (pad2 mo ++ ('-' :: pad2 d))) : List Char).drop 1).headD ' ' =
    digitChar (mo / 10) from rfl]
  rw [if_neg (digitChar_ne_of_not_digit _ _ (by decide))]
  rw [show ((('-' :: (pad2 mo ++ ('-' :: pad2 d))) : List Char).drop 1) =
    pad2 mo ++ ('-' :: pad2 d) from rfl]
  rw [parse2_pad2, Nat.mod_eq_of_lt (by omega : mo < 100)]
  simp only [Option.some_bind]
  rw [expect_cons]
  simp only [Option.some_bind]
  rw [parse2_pad2_nil, Nat.mod_eq_of_lt (by omega : d < 100)]
  simp only [Option.some_bind]
  rw [if_pos ⟨trivial, by unfold validYMD; exact decide_eq_true ⟨h1, h2, h3, h4, h5, h6⟩⟩]
  rfl

/-- The canonical zone-naive rendering parses back to the fields with no
offset. -/
theorem pyFromIso_isoNaive (dt : PyDateTime) (h : validDT dt = true) :
    pyFromIso (isoNaive dt) = some (dt, none) := by
  unfold validDT at h
  rw [decide_eq_true_iff] at h
  obtain ⟨hy1, hy2, hm1, hm2, hd1, hd2, hh, hmi, hs, hus⟩ := h
  have hsplit : (isoNaive dt).data =
      (pad4 dt.year ++ ('-' :: (pad2 dt.month ++ ('-' :: pad2 dt.day)))) ++
        ('T' :: (pad2 dt.hour ++ (':' :: (pad2 dt.minute ++ (':' :: pad2 dt.second))))) := by
    show pad4 dt.year ++ ('-' :: pad2 dt.month) ++ ('-' :: pad2 dt.day) ++
      ('T' :: pad2 dt.hour) ++ (':' :: pad2 dt.minute) ++ (':' :: pad2 dt.second) = _
    simp [List.append_assoc]
  have hbig : ¬ (((pad4 dt.year ++ ('-' :: (pad2 dt.month ++ ('-' :: pad2 dt.day)))) ++
      ('T' :: (pad2 dt.hour ++ (':' :: (pad2 dt.minute ++
        (':' :: pad2 dt.second)))))) : List Char).length ≤ 10 := by
    simp [pad4, pad2]
  have hdrop : (((pad4 dt.year ++ ('-' :: (pad2 dt.month ++ ('-' :: pad2 dt.day)))) ++
      ('T' :: (pad2 dt.hour ++ (':' :: (pad2 dt.minute ++
        (':' :: pad2 dt.second)))))) : List Char).drop (10 + 1) =
      pad2 dt.hour ++ (':' :: (pad2 dt.minute ++ (':' :: pad2 dt.second))) := by
    rw [← List.drop_drop, List.drop_left' (datepart_len dt.year dt.month dt.day)]
    rfl
  unfold pyFromIso
  rw [hsplit, isoSepPos_render]
  rw [List.take_left' (datepart_len dt.year dt.month dt.day)]
  rw [parseIsoDate_render dt.year dt.month dt.day hy1 hy2 hm1 hm2 hd1 hd2]
  simp only [Option.bind_eq_bind, Option.some_bind]
  rw [if_neg hbig, hdrop, parseIsoTime_naive]
  simp only [Option.some_bind]
  rw [Nat.mod_eq_of_lt (by omega : dt.hour < 100),
    Nat.mod_eq_of_lt (by omega : dt.minute < 100),
    Nat.mod_eq_of_lt (by omega : dt.second < 100)]
  rw [if_pos ⟨hh, hmi, hs⟩]
  rw [← hus]
  rfl

/-- The canonical rendering with the +00:00 offset appended parses back to
the fields with offset zero. -/
theorem pyFromIso_isoNaiveZ (dt : PyDateTime) (h : validDT dt = true) :
    pyFromIso (String.mk ((isoNaive dt).data ++ ("+00:00").data)) = some (dt, some 0) := by
  unfold validDT at h
  rw [decide_eq_true_iff] at h
  obtain ⟨hy1, hy2, hm1, hm2, hd1, hd2, hh, hmi, hs, hus⟩ := h
  have hsplit : (String.mk ((isoNaive dt).data ++ ("+00:00").data)).data =
      (pad4 dt.year ++ ('-' :: (pad2 dt.month ++ ('-' :: pad2 dt.day)))) ++
        ('T' :: ((pad2 dt.hour ++ (':' :: (pad2 dt.minute ++ (':' :: pad2 dt.second)))) ++
          ('+' :: '0' :: '0' :: ':' :: '0' :: '0' :: []))) := by
    show (pad4 dt.year ++ ('-' :: pad2 dt.month) ++ ('-' :: pad2 dt.day) ++
      ('T' :: pad2 dt.hour) ++ (':' :: pad2 dt.minute) ++ (':' :: pad2 dt.second)) ++
      ("+00:00").data = _
    rw [show ("+00:00").data = ('+' :: '0' :: '0' :: ':' :: '0' :: '0' :: []) from rfl]
    simp [List.append_assoc]
  have hbig : ¬ (((pad4 dt.year ++ ('-' :: (pad2 dt.month ++ ('-' :: pad2 dt.day)))) ++
      ('T' :: ((pad2 dt.hour ++ (':' :: (pad2 dt.minute ++ (':' :: pad2 dt.second)))) ++
        ('+' :: '0' :: '0' :: ':' :: '0' :: '0' :: [])))) : List Char).length ≤ 10 := by
    simp [pad4, pad2]
  have hdrop : (((pad4 dt.year ++ ('-' :: (pad2 dt.month ++ ('-' :: pad2 dt.day)))) ++
      ('T' :: ((pad2 dt.hour ++ (':' :: (pad2 dt.minute ++ (':' :: pad2 dt.second)))) ++
        ('+' :: '0' :: '0' :: ':' :: '0' :: '0' :: [])))) : List Char).drop (10 + 1) =
      (pad2 dt.hour ++ (':' :: (pad2 dt.minute ++ (':' :: pad2 dt.second)))) ++
        ('+' :: '0' :: '0' :: ':' :: '0' :: '0' :: []) := by
    rw [← List.drop_drop, List.drop_left' (datepart_len dt.year dt.month dt.day)]
    rfl
  unfold pyFromIso
  rw [hsplit, isoSepPos_render]
  rw [List.take_left' (datepart_len dt.year dt.month dt.day)]
  rw [parseIsoDate_render dt.year dt.month dt.day hy1 hy2 hm1 hm2 hd1 hd2]
  simp only [Option.bind_eq_bind, Option.some_bind]
  rw [if_neg hbig, hdrop, parseIsoTime_utc]
  simp only [Option.some_bind]
  rw [Nat.mod_eq_of_lt (by omega : dt.hour < 100),
    Nat.mod_eq_of_lt (by omega : dt.minute < 100),
    Nat.mod_eq_of_lt (by omega : dt.second < 100)]
  rw [if_pos ⟨hh, hmi, hs⟩]
  rw [← hus]
  rfl

theorem isoNaive_ne_empty (dt : PyDateTime) : isoNaive dt ≠ "" := by
  refine ne_empty_of_data_ne_nil ?_
  show pad4 dt.year ++ ('-' :: pad2 dt.month) ++ ('-' :: pad2 dt.day) ++
      ('T' :: pad2 dt.hour) ++ (':' :: pad2 dt.minute) ++ (':' :: pad2 dt.second) ≠ []
  simp [pad4, pad2]

theorem isoNaiveZ_ne_empty (dt : PyDateTime) : isoNaive dt ++ "Z" ≠ "" := by
  refine ne_empty_of_data_ne_nil ?_
  rw [String.data_append]
  simp

/-- C7 counterexample: the zone-naive timestamp 9999-12-31T20:00:00 and the
same instant written with the Z marker do not normalize to the same string:
the UTC+8 conversion overflows datetime.max, astimezone raises, and the
except branch returns each distinct original string unchanged. -/
theorem C7_counterexample :
    (format_time ("9999-12-31T20:00:00Z") ("c7")).1 = "9999-12-31T20:00:00Z" ∧
    (format_time ("9999-12-31T20:00:00") ("c7")).1 = "9999-12-31T20:00:00" ∧
    format_time ("9999-12-31T20:00:00Z") ("c7") ≠
      format_time ("9999-12-31T20:00:00") ("c7") := by decide

/-- C7 (amended): for every valid instant whose value and UTC+8 image stay
within datetime's range, the canonical zone-naive timestamp and the same
instant carrying the explicit UTC marker Z normalize to the identical
zone-naive UTC+8 string in the pattern YYYY-MM-DD HH:MM:SS: the naive form
is interpreted as UTC, so both reduce to the same instant shifted by eight
hours.  Within eight hours of the year-10000 boundary astimezone overflows
and both calls fall back to their distinct original strings instead. -/
theorem C7_roundtrip_amended (dt : PyDateTime) (chat_id : String)
    (hv : validDT dt = true) (hlo : minEpochUs ≤ toEpochUs dt)
    (hhi : toEpochUs dt + 28800000000 ≤ maxEpochUs) :
    format_time (isoNaive dt ++ "Z") chat_id = format_time (isoNaive dt) chat_id ∧
    format_time (isoNaive dt) chat_id = (renderHKT (toEpochUs dt), none) := by
  have hzdat : replaceZ (isoNaive dt ++ "Z") =
      String.mk ((isoNaive dt).data ++ ("+00:00").data) := by
    unfold replaceZ
    rw [String.data_append, replaceZData_append, replaceZData_isoNaive]
    have hZ : replaceZData (("Z").data) = ("+00:00").data := by decide
    rw [hZ]
  have hzparse : pyFromIso (replaceZ (isoNaive dt ++ "Z")) = some (dt, some 0) := by
    rw [hzdat]
    exact pyFromIso_isoNaiveZ dt hv
  have hnparse : pyFromIso (replaceZ (isoNaive dt)) = some (dt, none) := by
    have hd : replaceZ (isoNaive dt) = isoNaive dt := by
      unfold replaceZ
      rw [replaceZData_isoNaive]
    rw [hd]
    exact pyFromIso_isoNaive dt hv
  have hval : format_time (isoNaive dt) chat_id = (renderHKT (toEpochUs dt), none) := by
    unfold format_time
    rw [if_neg (isoNaive_ne_empty dt), hnparse]
    simp only [Option.getD_none, sub_zero]
    rw [if_pos ⟨hlo, hhi⟩]
  have hvalZ : format_time (isoNaive dt ++ "Z") chat_id =
      (renderHKT (toEpochUs dt), none) := by
    unfold format_time
    rw [if_neg (isoNaiveZ_ne_empty dt), hzparse]
    simp only [Option.getD_some, sub_zero]
    rw [if_pos ⟨hlo, hhi⟩]
  exact ⟨hvalZ.trans hval.symm, hval⟩

/-- C7 witness: the instant 2024-01-02 03:04:05 UTC, written with and without
the Z marker, normalizes both ways to 2024-01-02 11:04:05. -/
theorem C7_roundtrip_amended_witness :
    format_time ("2024-01-02T03:04:05Z") ("c1") =
      format_time ("2024-01-02T03:04:05") ("c1") ∧
    format_time ("2024-01-02T03:04:05") ("c1") = ("2024-01-02 11:04:05", none) := by
  have h := C7_roundtrip_amended ⟨2024, 1, 2, 3, 4, 5, 0⟩ ("c1") (by decide) (by decide)
    (by decide)
  rw [show isoNaive ⟨2024, 1, 2, 3, 4, 5, 0⟩ = "2024-01-02T03:04:05" from by decide] at h
  rw [show ("2024-01-02T03:04:05" ++ "Z" : String) = "2024-01-02T03:04:05Z" from by decide] at h
  rw [show renderHKT (toEpochUs ⟨2024, 1, 2, 3, 4, 5, 0⟩) = "2024-01-02 11:04:05" from by
    decide] at h
  exact h

/-- C8 counterexample: 9999-12-31T20:00:00 is parseable (fromisoformat
succeeds on it), yet the normalizer does not return its formatted UTC+8
string: astimezone overflows past datetime.max, and the original string
comes back with the warning. -/
theorem C8_counterexample :
    pyFromIso (replaceZ ("9999-12-31T20:00:00")) =
      some (⟨9999, 12, 31, 20, 0, 0, 0⟩, none) ∧
    format_time ("9999-12-31T20:00:00") ("c8") =
      ("9999-12-31T20:00:00", some (ftWarning ("9999-12-31T20:00:00") ("c8"))) := by
  decide

/-- C8 (amended): the time normalizer is total and fails soft: an empty input
yields the empty string with no warning; a parseable input whose UTC instant
and UTC+8 image lie within datetime's range yields the UTC+8 rendering with
no warning; a parseable input outside that range (astimezone overflow) and an
unparsable input are both returned unchanged together with a warning line
carrying the conversation id. -/
theorem C8_format_time_amended (created_at chat_id : String) :
    (created_at = "" → format_time created_at chat_id = ("", none)) ∧
    (∀ dt off, pyFromIso (replaceZ created_at) = some (dt, off) →
      minEpochUs ≤ toEpochUs dt - off.getD 0 →
      toEpochUs dt - off.getD 0 + 28800000000 ≤ maxEpochUs →
      format_time created_at chat_id =
        (renderHKT (toEpochUs dt - off.getD 0), none)) ∧
    (∀ dt off, pyFromIso (replaceZ created_at) = some (dt, off) →
      ¬ (minEpochUs ≤ toEpochUs dt - off.getD 0 ∧
         toEpochUs dt - off.getD 0 + 28800000000 ≤ maxEpochUs) →
      (format_time created_at chat_id).1 = created_at ∧
      ∃ w, (format_time created_at chat_id).2 = some w ∧ chat_id.data <:+ w.data) ∧
    (created_at ≠ "" → pyFromIso (replaceZ created_at) = none →
      (format_time created_at chat_id).1 = created_at ∧
      ∃ w, (format_time created_at chat_id).2 = some w ∧ chat_id.data <:+ w.data) := by
  have hne_of_parse : ∀ dt off, pyFromIso (replaceZ created_at) = some (dt, off) →
      created_at ≠ "" := by
    intro dt off hp he
    subst he
    have hnone : pyFromIso (replaceZ ("")) = none := by decide
    rw [hnone] at hp
    exact absurd hp (by simp)
  refine ⟨?_, ?_, ?_, ?_⟩
  · intro h
    subst h
    rfl
  · intro dt off hp hlo hhi
    unfold format_time
    rw [if_neg (hne_of_parse dt off hp), hp]
    show (if minEpochUs ≤ toEpochUs dt - off.getD 0 ∧
        toEpochUs dt - off.getD 0 + 28800000000 ≤ maxEpochUs then
        (renderHKT (toEpochUs dt - off.getD 0), none)
      else (created_at, some (ftWarning created_at chat_id))) = _
    rw [if_pos ⟨hlo, hhi⟩]
  · intro dt off hp hrange
    have heq : format_time created_at chat_id =
        (created_at, some (ftWarning created_at chat_id)) := by
      unfold format_time
      rw [if_neg (hne_of_parse dt off hp), hp]
      show (if minEpochUs ≤ toEpochUs dt - off.getD 0 ∧
          toEpochUs dt - off.getD 0 + 28800000000 ≤ maxEpochUs then
          (renderHKT (toEpochUs dt - off.getD 0), none)
        else (created_at, some (ftWarning created_at chat_id))) = _
      rw [if_neg hrange]
    rw [heq]
    refine ⟨rfl, _, rfl, ?_⟩
    show chat_id.data <:+ (ftWarning created_at chat_id).data
    unfold ftWarning
    rw [String.data_append]
    exact List.suffix_append _ _
  · intro hne hp
    have heq : format_time created_at chat_id =
        (created_at, some (ftWarning created_at chat_id)) := by
      unfold format_time
      rw [if_neg hne, hp]
    rw [heq]
    refine ⟨rfl, _, rfl, ?_⟩
    show chat_id.data <:+ (ftWarning created_at chat_id).data
    unfold ftWarning
    rw [String.data_append]
    exact List.suffix_append _ _

/-- C8 witness: the amended contract applied to the empty input, to an
unparsable input, and to a parseable in-range input. -/
theorem C8_format_time_amended_witness :
    format_time ("") ("c2") = ("", none) ∧
    (format_time ("not a time") ("c2")).1 = "not a time" ∧
    format_time ("2024-01-02T03:04:06Z") ("c2") = ("2024-01-02 11:04:06", none) := by
  have h1 := (C8_format_time_amended ("") ("c2")).1 rfl
  have h2 := (C8_format_time_amended ("not a time") ("c2")).2.2.2 (by decide) (by decide)
  have h3 := (C8_format_time_amended ("2024-01-02T03:04:06Z") ("c2")).2.1
    ⟨2024, 1, 2, 3, 4, 6, 0⟩ (some 0) (by decide) (by decide) (by decide)
  refine ⟨h1, h2.1, ?_⟩
  rw [h3]
  rw [show renderHKT (toEpochUs ⟨2024, 1, 2, 3, 4, 6, 0⟩ -
    (some (0 : ℤ)).getD 0) = "2024-01-02 11:04:06" from by decide]

/-- Visit metadata of a customer participant (the fields the claims use). -/
structure Visit where
  referrer : String
  last_pages : List String
  deriving DecidableEq, Repr

/-- A participant of a raw chat; absent JSON keys are the empty defaults the
source's .get calls produce.  A session_fields entry is one dict, modelled as
its key/value pairs in iteration (insertion) order. -/
structure RawUser where
  type : String
  id : String
  name : String
  email : String
  phone : String
  session_fields : List (List (String × String))
  visit : Visit
  deriving DecidableEq, Repr

/-- Properties of a raw event: the standard form_data dict, the form type,
and the prechat field list as (name, answer) pairs. -/
structure EventProps where
  form_data : List (String × String)
  form_type : String
  fields : List (String × String)
  deriving DecidableEq, Repr

/-- A raw chat event. -/
structure RawEvent where
  type : String
  created_at : String
  author_id : String
  text : String
  properties : EventProps
  deriving DecidableEq, Repr

/-- Phone-key names accepted for session fields
(src/data_conversion_pipeline.py line 80). -/
def phone_keys : List String :=
  ["phone", "phone_number", "mobile", "mobile_number", "telephone"]

/-- One key/value pair of a session_fields dict (lines 76-82): the email
branch, else the phone branch, each filling only a currently-empty field. -/
def sessionStep (st : String × String) (kv : String × String) : String × String :=
  if pyContains ("email") (pyLower kv.1) = true ∧ kv.2 ≠ "" ∧ st.1 = "" then (kv.2, st.2)
  else if pyLower kv.1 ∈ phone_keys ∧ kv.2 ≠ "" ∧ st.2 = "" then (st.1, kv.2)
  else st

/-- One prechat field (lines 97-108): the name Phone Number exactly fills the
phone, else a name containing email fills the email. -/
def prechatStep (st : String × String) (f : String × String) : String × String :=
  if f.1 = "Phone Number" ∧ f.2 ≠ "" ∧ st.2 = "" then (st.1, f.2)
  else if pyContains ("email") (pyLower f.1) = true ∧ f.2 ≠ "" ∧ st.1 = "" then (f.2, st.2)
  else st

/-- The standard form_data handling of one form event (lines 88-92): dict
lookups for email then phone, each filling only a currently-empty field. -/
def formDataStep (st : String × String) (fd : List (String × String)) : String × String :=
  (match fd.lookup ("email") with
   | some v => if v ≠ "" ∧ st.1 = "" then v else st.1
   | none => st.1,
   match fd.lookup ("phone") with
   | some v => if v ≠ "" ∧ st.2 = "" then v else st.2
   | none => st.2)

/-- Contact handling of one event (lines 85-108): only form events
contribute; the standard form_data lookups run first, then, for prechat
forms, the named field list. -/
def eventStep (st : String × String) (ev : RawEvent) : String × String :=
  if ev.type = "form" then
    let st1 := formDataStep st ev.properties.form_data
    if ev.properties.form_type = "prechat" then
      ev.properties.fields.foldl prechatStep st1
    else st1
  else st

/-- Email/phone resolution of `ChatDataProcessor.clean_chat_data` (lines
67-108): participant direct fields, then session_fields pairs, then the form
events, in order. -/
def extract_contact (customer : RawUser) (events : List RawEvent) : String × String :=
  events.foldl eventStep
    (customer.session_fields.foldl (fun st f => f.foldl sessionStep st)
      (customer.email, customer.phone))

/-- Fill an empty field from the first candidate (candidates are non-empty by
construction). -/
def fillCands (cur : String) (cands : List String) : String :=
  if cur = "" then cands.headD "" else cur

/-- Email candidate offered by one session pair. -/
def pairEmailCand (kv : String × String) : List String :=
  if pyContains ("email") (pyLower kv.1) = true ∧ kv.2 ≠ "" then [kv.2] else []

/-- Phone candidate offered by one session pair. -/
def pairPhoneCand (kv : String × String) : List String :=
  if pyLower kv.1 ∈ phone_keys ∧ kv.2 ≠ "" then [kv.2] else []

/-- Email candidate offered by one prechat field. -/
def prechatEmailCand (f : String × String) : List String :=
  if pyContains ("email") (pyLower f.1) = true ∧ f.2 ≠ "" then [f.2] else []

/-- Phone candidate offered by one prechat field. -/
def prechatPhoneCand (f : String × String) : List String :=
  if f.1 = "Phone Number" ∧ f.2 ≠ "" then [f.2] else []

/-- Email candidate offered by a form_data dict. -/
def formDataEmailCand (fd : List (String × String)) : List String :=
  match fd.lookup ("email") with
  | some v => if v ≠ "" then [v] else []
  | none => []

/-- Phone candidate offered by a form_data dict. -/
def formDataPhoneCand (fd : List (String × String)) : List String :=
  match fd.lookup ("phone") with
  | some v => if v ≠ "" then [v] else []
  | none => []

/-- Email candidates offered by one event, in source order. -/
def eventEmailCands (ev : RawEvent) : List String :=
  if ev.type = "form" then
    formDataEmailCand ev.properties.form_data ++
      (if ev.properties.form_type = "prechat" then
        ev.properties.fields.flatMap prechatEmailCand
      else [])
  else []

/-- Phone candidates offered by one event, in source order. -/
def eventPhoneCands (ev : RawEvent) : List String :=
  if ev.type = "form" then
    formDataPhoneCand ev.properties.form_data ++
      (if ev.properties.form_type = "prechat" then
        ev.properties.fields.flatMap prechatPhoneCand
      else [])
  else []

theorem fillCands_nil (cur : String) : fillCands cur [] = cur := by
  unfold fillCands
  split
  · rename_i h
    rw [h]
    rfl
  · rfl

theorem fillCands_append (cur : String) (c1 c2 : List String)
    (h1 : ∀ v ∈ c1, v ≠ "") :
    fillCands (fillCands cur c1) c2 = fillCands cur (c1 ++ c2) := by
  unfold fillCands
  by_cases hc : cur = ""
  · cases c1 with
    | nil => simp [hc]
    | cons v t =>
      have hv : v ≠ "" := h1 v (by simp)
      simp [hc, hv]
  · simp [hc]

theorem pairEmailCand_ne : ∀ kv v, v ∈ pairEmailCand kv → v ≠ "" := by
  intro kv v hv
  unfold pairEmailCand at hv
  split at hv
  · rename_i h
    simp at hv
    rw [hv]
    exact h.2
  · simp at hv

theorem pairPhoneCand_ne : ∀ kv v, v ∈ pairPhoneCand kv → v ≠ "" := by
  intro kv v hv
  unfold pairPhoneCand at hv
  split at hv
  · rename_i h
    simp at hv
    rw [hv]
    exact h.2
  · simp at hv

theorem prechatEmailCand_ne : ∀ f v, v ∈ prechatEmailCand f → v ≠ "" := by
  intro f v hv
  unfold prechatEmailCand at hv
  split at hv
  · rename_i h
    simp at hv
    rw [hv]
    exact h.2
  · simp at hv

theorem prechatPhoneCand_ne : ∀ f v, v ∈ prechatPhoneCand f → v ≠ "" := by
  intro f v hv
  unfold prechatPhoneCand at hv
  split at hv
  · rename_i h
    simp at hv
    rw [hv]
    exact h.2
  · simp at hv

theorem formDataEmailCand_ne : ∀ fd v, v ∈ formDataEmailCand fd → v ≠ "" := by
  intro fd v hv
  unfold formDataEmailCand at hv
  split at hv
  · rename_i w hw
    split at hv
    · rename_i h
      simp at hv
      rw [hv]
      exact h
    · simp at hv
  · simp at hv

theorem formDataPhoneCand_ne : ∀ fd v, v ∈ formDataPhoneCand fd → v ≠ "" := by
  intro fd v hv
  unfold formDataPhoneCand at hv
  split at hv
  · rename_i w hw
    split at hv
    · rename_i h
      simp at hv
      rw [hv]
      exact h
    · simp at hv
  · simp at hv

theorem flatMap_cand_ne {α : Type} (g : α → List String)
    (hg : ∀ a v, v ∈ g a → v ≠ "") :
    ∀ (l : List α) v, v ∈ l.flatMap g → v ≠ "" := by
  intro l v hv
  obtain ⟨a, _, hva⟩ := List.mem_flatMap.mp hv
  exact hg a v hva

theorem foldl_fillCands {α : Type} (ce cp : α → List String)
    (hce : ∀ a v, v ∈ ce a → v ≠ "") (hcp : ∀ a v, v ∈ cp a → v ≠ "")
    (l : List α) (e p : String) :
    l.foldl (fun st a => (fillCands st.1 (ce a), fillCands st.2 (cp a))) (e, p) =
      (fillCands e (l.flatMap ce), fillCands p (l.flatMap cp)) := by
  induction l generalizing e p with
  | nil => simp [fillCands_nil]
  | cons a rest ih =>
    simp only [List.foldl_cons, List.flatMap_cons]
    rw [ih]
    rw [fillCands_append _ _ _ (fun v hv => hce a v hv),
        fillCands_append _ _ _ (fun v hv => hcp a v hv)]

theorem email_key_not_phone_key {x : String}
    (h : pyContains ("email") (pyLower x) = true) : ¬ pyLower x ∈ phone_keys := by
  intro hmem
  simp only [phone_keys, List.mem_cons, List.not_mem_nil, or_false] at hmem
  rcases hmem with he | he | he | he | he <;> rw [he] at h <;> exact absurd h (by decide)

theorem if_empty_self (s : String) : (if s = "" then "" else s) = s := by
  split
  · rename_i h
    rw [h]
  · rfl

theorem sessionStep_eq (st : String × String) (kv : String × String) :
    sessionStep st kv =
      (fillCands st.1 (pairEmailCand kv), fillCands st.2 (pairPhoneCand kv)) := by
  by_cases he : pyContains ("email") (pyLower kv.1) = true
  · have hp : ¬ pyLower kv.1 ∈ phone_keys := email_key_not_phone_key he
    by_cases hv : kv.2 = "" <;> by_cases h1 : st.1 = "" <;>
      simp [sessionStep, pairEmailCand, pairPhoneCand, fillCands, he, hp, hv, h1,
        if_empty_self, Prod.ext_iff]
  · by_cases hp : pyLower kv.1 ∈ phone_keys
    · by_cases hv : kv.2 = "" <;> by_cases h2 : st.2 = "" <;>
        simp [sessionStep, pairEmailCand, pairPhoneCand, fillCands, he, hp, hv, h2,
          if_empty_self, Prod.ext_iff]
    · simp [sessionStep, pairEmailCand, pairPhoneCand, fillCands, he, hp, fillCands_nil,
        if_empty_self, Prod.ext_iff]

theorem phone_number_not_email_key :
    ¬ pyContains ("email") (pyLower ("Phone Number")) = true := by decide

theorem prechatStep_eq (st : String × String) (f : String × String) :
    prechatStep st f =
      (fillCands st.1 (prechatEmailCand f), fillCands st.2 (prechatPhoneCand f)) := by
  by_cases hpn : f.1 = "Phone Number"
  · have he : ¬ pyContains ("email") (pyLower f.1) = true := by
      rw [hpn]
      exact phone_number_not_email_key
    by_cases hv : f.2 = "" <;> by_cases h2 : st.2 = "" <;>
      simp [prechatStep, prechatEmailCand, prechatPhoneCand, fillCands, hpn, he, hv, h2,
        phone_number_not_email_key, if_empty_self, Prod.ext_iff]
  · by_cases he : pyContains ("email") (pyLower f.1) = true
    · by_cases hv : f.2 = "" <;> by_cases h1 : st.1 = "" <;>
        simp [prechatStep, prechatEmailCand, prechatPhoneCand, fillCands, hpn, he, hv, h1,
          if_empty_self, Prod.ext_iff]
    · simp [prechatStep, prechatEmailCand, prechatPhoneCand, fillCands, hpn, he,
        if_empty_self, Prod.ext_iff]

theorem formDataStep_eq (st : String × String) (fd : List (String × String)) :
    formDataStep st fd =
      (fillCands st.1 (formDataEmailCand fd), fillCands st.2 (formDataPhoneCand fd)) := by
  unfold formDataStep formDataEmailCand formDataPhoneCand
  have hE : (match fd.lookup ("email") with
      | some v => if v ≠ "" ∧ st.1 = "" then v else st.1
      | none => st.1) =
      fillCands st.1 (match fd.lookup ("email") with
        | some v => if v ≠ "" then [v] else []
        | none => []) := by
    cases hv : fd.lookup ("email") with
    | none => simp [fillCands_nil]
    | some v =>
      by_cases hv2 : v = "" <;> by_cases h1 : st.1 = "" <;>
        simp [fillCands, hv2, h1, if_empty_self]
  have hP : (match fd.lookup ("phone") with
      | some v => if v ≠ "" ∧ st.2 = "" then v else st.2
      | none => st.2) =
      fillCands st.2 (match fd.lookup ("phone") with
        | some v => if v ≠ "" then [v] else []
        | none => []) := by
    cases hv : fd.lookup ("phone") with
    | none => simp [fillCands_nil]
    | some v =>
      by_cases hv2 : v = "" <;> by_cases h2 : st.2 = "" <;>
        simp [fillCands, hv2, h2, if_empty_self]
  rw [hE, hP]

theorem eventStep_eq (st : String × String) (ev : RawEvent) :
    eventStep st ev =
      (fillCands st.1 (eventEmailCands ev), fillCands st.2 (eventPhoneCands ev)) := by
  unfold eventStep eventEmailCands eventPhoneCands
  by_cases ht : ev.type = "form"
  · rw [if_pos ht, if_pos ht, if_pos ht]
    by_cases hpc : ev.properties.form_type = "prechat"
    · rw [if_pos hpc, if_pos hpc, if_pos hpc]
      rw [formDataStep_eq]
      have hfun : prechatStep = fun (st : String × String) f =>
          (fillCands st.1 (prechatEmailCand f), fillCands st.2 (prechatPhoneCand f)) :=
        funext fun st => funext fun f => prechatStep_eq st f
      rw [hfun]
      rw [foldl_fillCands _ _ prechatEmailCand_ne prechatPhoneCand_ne]
      rw [fillCands_append _ _ _ (formDataEmailCand_ne _),
          fillCands_append _ _ _ (formDataPhoneCand_ne _)]
    · rw [if_neg hpc, if_neg hpc, if_neg hpc]
      rw [formDataStep_eq]
      simp
  · rw [if_neg ht, if_neg ht, if_neg ht]
    rw [fillCands_nil, fillCands_nil]

theorem eventEmailCands_ne : ∀ ev v, v ∈ eventEmailCands ev → v ≠ "" := by
  intro ev v hv
  unfold eventEmailCands at hv
  split at hv
  · rcases List.mem_append.mp hv with h | h
    · exact formDataEmailCand_ne _ v h
    · split at h
      · exact flatMap_cand_ne prechatEmailCand prechatEmailCand_ne _ v h
      · simp at h
  · simp at hv

theorem eventPhoneCands_ne : ∀ ev v, v ∈ eventPhoneCands ev → v ≠ "" := by
  intro ev v hv
  unfold eventPhoneCands at hv
  split at hv
  · rcases List.mem_append.mp hv with h | h
    · exact formDataPhoneCand_ne _ v h
    · split at h
      · exact flatMap_cand_ne prechatPhoneCand prechatPhoneCand_ne _ v h
      · simp at h
  · simp at hv

/-- Session candidates (all session_fields dicts, pairs in order). -/
def sessionEmailCands (sf : List (List (String × String))) : List String :=
  sf.flatMap fun f => f.flatMap pairEmailCand

/-- Session phone candidates. -/
def sessionPhoneCands (sf : List (List (String × String))) : List String :=
  sf.flatMap fun f => f.flatMap pairPhoneCand

/-- All email candidates of a conversation, in source precedence order. -/
def emailCands (customer : RawUser) (events : List RawEvent) : List String :=
  customer.email ::
    (sessionEmailCands customer.session_fields ++ events.flatMap eventEmailCands)

/-- All phone candidates of a conversation, in source precedence order. -/
def phoneCands (customer : RawUser) (events : List RawEvent) : List String :=
  customer.phone ::
    (sessionPhoneCands customer.session_fields ++ events.flatMap eventPhoneCands)

/-- First non-empty string of a list, or the empty string. -/
def firstNonEmpty (l : List String) : String := (l.find? (fun v => v != "")).getD ""

theorem fillCands_eq_firstNonEmpty (cur : String) (cands : List String)
    (h : ∀ v ∈ cands, v ≠ "") :
    fillCands cur cands = firstNonEmpty (cur :: cands) := by
  unfold fillCands firstNonEmpty
  by_cases hc : cur = ""
  · rw [if_pos hc]
    cases cands with
    | nil => simp [hc]
    | cons v t =>
      have hv : v ≠ "" := h v (by simp)
      simp [hc, hv]
  · simp [hc]

theorem extract_contact_eq (customer : RawUser) (events : List RawEvent) :
    extract_contact customer events =
      (fillCands customer.email
        (sessionEmailCands customer.session_fields ++ events.flatMap eventEmailCands),
       fillCands customer.phone
        (sessionPhoneCands customer.session_fields ++ events.flatMap eventPhoneCands)) := by
  unfold extract_contact
  have hsess : (fun (st : String × String) (f : List (String × String)) =>
      f.foldl sessionStep st) =
      fun st f => (fillCands st.1 (f.flatMap pairEmailCand),
        fillCands st.2 (f.flatMap pairPhoneCand)) := by
    funext st f
    have hfun : sessionStep = fun (st : String × String) kv =>
        (fillCands st.1 (pairEmailCand kv), fillCands st.2 (pairPhoneCand kv)) :=
      funext fun st => funext fun kv => sessionStep_eq st kv
    rw [hfun]
    exact foldl_fillCands _ _ pairEmailCand_ne pairPhoneCand_ne f st.1 st.2
  rw [hsess]
  rw [foldl_fillCands _ _
    (flatMap_cand_ne pairEmailCand pairEmailCand_ne)
    (flatMap_cand_ne pairPhoneCand pairPhoneCand_ne)]
  have hev : eventStep = fun (st : String × String) ev =>
      (fillCands st.1 (eventEmailCands ev), fillCands st.2 (eventPhoneCands ev)) :=
    funext fun st => funext fun ev => eventStep_eq st ev
  rw [hev]
  rw [foldl_fillCands _ _ eventEmailCands_ne eventPhoneCands_ne]
  rw [fillCands_append _ _ _
      (flatMap_cand_ne _ (fun f => flatMap_cand_ne pairEmailCand pairEmailCand_ne f) _),
    fillCands_append _ _ _
      (flatMap_cand_ne _ (fun f => flatMap_cand_ne pairPhoneCand pairPhoneCand_ne f) _)]
  rfl

theorem allCands_ne (customer : RawUser) (events : List RawEvent) :
    ∀ v ∈ sessionEmailCands customer.session_fields ++ events.flatMap eventEmailCands,
      v ≠ "" := by
  intro v hv
  rcases List.mem_append.mp hv with h | h
  · exact flatMap_cand_ne _ (fun f => flatMap_cand_ne pairEmailCand pairEmailCand_ne f) _ v h
  · exact flatMap_cand_ne eventEmailCands eventEmailCands_ne _ v h

theorem allCandsP_ne (customer : RawUser) (events : List RawEvent) :
    ∀ v ∈ sessionPhoneCands customer.session_fields ++ events.flatMap eventPhoneCands,
      v ≠ "" := by
  intro v hv
  rcases List.mem_append.mp hv with h | h
  · exact flatMap_cand_ne _ (fun f => flatMap_cand_ne pairPhoneCand pairPhoneCand_ne f) _ v h
  · exact flatMap_cand_ne eventPhoneCands eventPhoneCands_ne _ v h

theorem firstNonEmpty_cons_of_ne {s : String} (l : List String) (h : s ≠ "") :
    firstNonEmpty (s :: l) = s := by
  unfold firstNonEmpty
  simp [List.find?_cons, h]

/-- C9: ContactInfo resolution fills email and phone from the first non-empty
source in order (participant direct fields, then session annotations, then
form-submission events including pre-chat fields); a field already populated
by an earlier source is never overridden by a later source. -/
theorem C9_contact_precedence (customer : RawUser) (events : List RawEvent) :
    extract_contact customer events =
      (firstNonEmpty (emailCands customer events),
       firstNonEmpty (phoneCands customer events)) ∧
    (customer.email ≠ "" → (extract_contact customer events).1 = customer.email) ∧
    (customer.phone ≠ "" → (extract_contact customer events).2 = customer.phone) := by
  have hmain : extract_contact customer events =
      (firstNonEmpty (emailCands customer events),
       firstNonEmpty (phoneCands customer events)) := by
    rw [extract_contact_eq]
    unfold emailCands phoneCands
    rw [fillCands_eq_firstNonEmpty _ _ (allCands_ne customer events),
      fillCands_eq_firstNonEmpty _ _ (allCandsP_ne customer events)]
  refine ⟨hmain, ?_, ?_⟩
  · intro h
    rw [hmain]
    show firstNonEmpty (emailCands customer events) = customer.email
    unfold emailCands
    exact firstNonEmpty_cons_of_ne _ h
  · intro h
    rw [hmain]
    show firstNonEmpty (phoneCands customer events) = customer.phone
    unfold phoneCands
    exact firstNonEmpty_cons_of_ne _ h

/-- Concrete customer for the C9 witness: the direct email is populated and a
session annotation offers a different email and a phone. -/
def C9ex : RawUser :=
  ⟨"customer", "u1", "Jo", "a@b.com", "",
    [[("Email", "x@y.z"), ("phone", "123")]], ⟨"", []⟩⟩

/-- C9 witness: the precedence theorem applied to a customer whose direct
email survives a session annotation while the empty phone is filled. -/
theorem C9_contact_precedence_witness :
    (extract_contact C9ex []).1 = "a@b.com" ∧ (extract_contact C9ex []).2 = "123" := by
  have h := (C9_contact_precedence C9ex []).2.1 (by decide)
  constructor
  · rw [h]
    rfl
  · decide

/-- A raw chat as read by `ChatDataProcessor.clean_chat_data` (events at top
level). -/
structure RawChat where
  id : String
  users : List RawUser
  events : List RawEvent
  created_at : String
  deriving DecidableEq, Repr

/-- A cleaned message. -/
structure CleanedMsg where
  time : String
  sender : String
  content : String
  deriving DecidableEq, Repr

/-- Message extraction shared by both cleaners (pipeline lines 133-156;
clean_chat_data.py lines 46-97 implement the same loop inline): skip
system_message and form events and blank texts; the sender is Customer
exactly when the customer id is non-empty and equals the author id. -/
def extract_messages (chat_id customer_id : String) (events : List RawEvent) :
    List CleanedMsg :=
  events.filterMap fun ev =>
    if ev.type = "system_message" ∨ ev.type = "form" then none
    else if pyStrip ev.text = "" then none
    else some ⟨(format_time ev.created_at chat_id).1,
      if customer_id ≠ "" ∧ ev.author_id = customer_id then "Customer" else "Agent",
      pyStrip ev.text⟩

/-- A cleaned conversation of the pipeline cleaner.  The source fields no
claim mentions (ip, user_agent, geolocation, visit timestamps, session_fields
echo, last_pages) are not modelled. -/
structure CleanedChat where
  chat_id : String
  name : String
  email : String
  phone : String
  referrer : String
  start_url : String
  messages : List CleanedMsg
  created_at : String
  deriving DecidableEq, Repr

/-- Per-chat cleaning of `ChatDataProcessor.clean_chat_data`
(src/data_conversion_pipeline.py lines 55-172): a chat without a customer
participant is skipped; otherwise contact info is resolved, messages are
extracted, and the chat is retained exactly when `_is_valid_consultation`
accepts — the message list plays no role in retention. -/
def clean_chat_record (chat : RawChat) : Option CleanedChat :=
  match chat.users.find? (fun u => u.type == "customer") with
  | none => none
  | some customer =>
    let contact := extract_contact customer chat.events
    if is_valid_consultation customer.name contact.1 contact.2 customer.visit.referrer then
      some ⟨chat.id, customer.name, contact.1, contact.2, customer.visit.referrer,
        customer.visit.last_pages.headD "", extract_messages chat.id customer.id chat.events,
        chat.created_at⟩
    else none

/-- A raw chat as read by `clean_chat_data` (src/clean_chat_data.py): the
events sit under the thread key. -/
structure RawChatT where
  id : String
  users : List RawUser
  thread_events : List RawEvent
  deriving DecidableEq, Repr

/-- The empty customer `{}` used when no customer participant exists
(clean_chat_data.py line 39); every .get then yields the empty default. -/
def emptyUser : RawUser := ⟨"", "", "", "", "", [], ⟨"", []⟩⟩

/-- A cleaned conversation of clean_chat_data.py. -/
structure CleanedChatT where
  chat_id : String
  name : String
  email : String
  phone : String
  messages : List CleanedMsg
  deriving DecidableEq, Repr

/-- The customer participant of a thread-shaped chat, degrading to the empty
customer `{}` when absent (clean_chat_data.py line 39). -/
def v2_customer (chat : RawChatT) : RawUser :=
  (chat.users.find? (fun u => u.type == "customer")).getD emptyUser

/-- The extracted messages of a thread-shaped chat. -/
def v2_messages (chat : RawChatT) : List CleanedMsg :=
  extract_messages chat.id (v2_customer chat).id chat.thread_events

/-- Per-chat cleaning of `clean_chat_data` (src/clean_chat_data.py lines
31-113): a missing customer participant degrades to the empty customer; the
chat is retained exactly when the message list is non-empty and contains at
least one Customer message. -/
def clean_chat_record_v2 (chat : RawChatT) : Option CleanedChatT :=
  if v2_messages chat ≠ [] ∧ (v2_messages chat).any (fun m => m.sender == "Customer") then
    some ⟨chat.id, (v2_customer chat).name, (v2_customer chat).email,
      (v2_customer chat).phone, v2_messages chat⟩
  else none

/-- Concrete chat for claim C5: a customer participant with a valid email and
no events at all. -/
def C5ex : RawChat :=
  ⟨"c5", [⟨"customer", "u1", "Jo", "jo@example.com", "", [], ⟨"", []⟩⟩], [], ""⟩

/-- C5 counterexample: the pipeline cleaner retains this conversation (its
email is valid) although its derived message list is empty and so contains no
Customer message: a CleanedConversation with zero messages is produced. -/
theorem C5_counterexample :
    (clean_chat_record C5ex).map CleanedChat.messages = some [] := by decide

/-- C5 (amended): every conversation retained by the clean_chat_data.py
cleaner has a non-empty message list containing a message from a Customer
sender; the pipeline cleaner instead retains solely by contact validity and
does produce conversations with an empty message list. -/
theorem C5_customer_message_amended (chat : RawChatT) (c : CleanedChatT)
    (h : clean_chat_record_v2 chat = some c) :
    c.messages ≠ [] ∧ ∃ m ∈ c.messages, m.sender = "Customer" := by
  unfold clean_chat_record_v2 at h
  split at h
  · rename_i hcond
    injection h with h
    subst h
    refine ⟨hcond.1, ?_⟩
    obtain ⟨m, hm, hms⟩ := List.any_eq_true.mp hcond.2
    exact ⟨m, hm, by simpa using hms⟩
  · exact absurd h (by simp)

/-- Concrete chat for the C5 witness: one customer participant who sent one
message. -/
def C5exT : RawChatT :=
  ⟨"c5b", [⟨"customer", "u1", "Jo", "", "", [], ⟨"", []⟩⟩],
   [⟨"message", "2024-01-02T03:04:05Z", "u1", "hi", ⟨[], "", []⟩⟩]⟩

/-- C5 witness: the amended theorem applied to a retained conversation with
one customer message. -/
theorem C5_customer_message_amended_witness :
    ∃ c, clean_chat_record_v2 C5exT = some c ∧ c.messages ≠ [] ∧
      ∃ m ∈ c.messages, m.sender = "Customer" := by
  have hrun : clean_chat_record_v2 C5exT = some ⟨"c5b", "Jo", "", "",
      [⟨"2024-01-02 11:04:05", "Customer", "hi"⟩]⟩ := by decide
  exact ⟨_, hrun, C5_customer_message_amended C5exT _ hrun⟩

example : is_valid_consultation ("John") ("") ("12345") ("") = true := by decide

example : is_valid_consultation ("John") ("") ("https://x.com") ("") = false := by decide

example : is_valid_consultation ("Test User") ("a@b.com") ("") ("") = false := by decide

example : is_valid_consultation ("J") ("tester@v-ycfz.com") ("12345") ("") = false := by decide

end LiveChat
